import Mathlib

/-!
Shallow embedding of the resume validation engine of
`backend/models/resume_models.py` and `backend/api/endpoints.py`
(pydantic v2 models plus the error-formatting endpoint), together with
theorems settling the specification claims about it.

Raw input values (the nested mapping arriving at the endpoint) are modelled
by the inductive `Raw`; each pydantic model becomes a Lean structure and a
validator function `Raw -> List VError x Option Model` mirroring pydantic
semantics: fields are validated in declaration order, core constraints
(`min_length`, `max_length`, `pattern`) run before the attached
`field_validator` functions, a field whose core validation fails skips its
after-validators, and errors from all fields are accumulated.
-/
/-- A raw wire value: string, list, nested mapping, or null. -/
inductive Raw where
  | str (s : String)
  | list (xs : List Raw)
  | obj (kvs : List (String × Raw))
  | null
deriving Repr

/-- A formatted validation error as produced by the `/validate` endpoint:
dotted field path, human message, machine-readable type tag. -/
structure VError where
  field : String
  message : String
  type : String
deriving Repr, DecidableEq

/-- Dictionary lookup on the raw mapping. -/
def getKey (kvs : List (String × Raw)) (k : String) : Option Raw :=
  (kvs.find? (fun kv => kv.1 = k)).map (fun kv => kv.2)

/-- The Unicode `Nd` (decimal digit) ranges: the character class matched by
the regex token `\d` in the (Unicode-aware) engine evaluating the
`pattern=` constraints. -/
def ndRanges : List (Nat × Nat) :=
  [(0x30, 0x39), (0x660, 0x669), (0x6F0, 0x6F9), (0x7C0, 0x7C9),
   (0x966, 0x96F), (0x9E6, 0x9EF), (0xA66, 0xA6F), (0xAE6, 0xAEF),
   (0xB66, 0xB6F), (0xBE6, 0xBEF), (0xC66, 0xC6F), (0xCE6, 0xCEF),
   (0xD66, 0xD6F), (0xDE6, 0xDEF), (0xE50, 0xE59), (0xED0, 0xED9),
   (0xF20, 0xF29), (0x1040, 0x1049), (0x1090, 0x1099), (0x17E0, 0x17E9),
   (0x1810, 0x1819), (0x1946, 0x194F), (0x19D0, 0x19D9), (0x1A80, 0x1A89),
   (0x1A90, 0x1A99), (0x1B50, 0x1B59), (0x1BB0, 0x1BB9), (0x1C40, 0x1C49),
   (0x1C50, 0x1C59), (0xA620, 0xA629), (0xA8D0, 0xA8D9), (0xA900, 0xA909),
   (0xA9D0, 0xA9D9), (0xA9F0, 0xA9F9), (0xAA50, 0xAA59), (0xABF0, 0xABF9),
   (0xFF10, 0xFF19), (0x104A0, 0x104A9), (0x10D30, 0x10D39),
   (0x11066, 0x1106F), (0x110F0, 0x110F9), (0x11136, 0x1113F),
   (0x111D0, 0x111D9), (0x112F0, 0x112F9), (0x11450, 0x11459),
   (0x114D0, 0x114D9), (0x11650, 0x11659), (0x116C0, 0x116C9),
   (0x11730, 0x11739), (0x118E0, 0x118E9), (0x11950, 0x11959),
   (0x11C50, 0x11C59), (0x11D50, 0x11D59), (0x11DA0, 0x11DA9),
   (0x16A60, 0x16A69), (0x16AC0, 0x16AC9), (0x16B50, 0x16B59),
   (0x1D7CE, 0x1D7FF), (0x1E140, 0x1E149), (0x1E2F0, 0x1E2F9),
   (0x1E950, 0x1E959), (0x1FBF0, 0x1FBF9)]

/-- Character class of the regex token `\d` (any Unicode decimal digit). -/
def reDigit (c : Char) : Bool :=
  ndRanges.any (fun r => decide (r.1 ≤ c.toNat) && decide (c.toNat ≤ r.2))

/-- Character class of the regex token `\s` (Unicode White_Space). -/
def reSpace (c : Char) : Bool :=
  let n := c.toNat
  (decide (0x9 ≤ n) && decide (n ≤ 0xD)) || decide (n = 0x20) ||
  decide (n = 0x85) || decide (n = 0xA0) || decide (n = 0x1680) ||
  (decide (0x2000 ≤ n) && decide (n ≤ 0x200A)) || decide (n = 0x2028) ||
  decide (n = 0x2029) || decide (n = 0x202F) || decide (n = 0x205F) ||
  decide (n = 0x3000)

/-- The whitespace set used by Python `str.split()` / `str.strip()`
(White_Space plus the four information-separator controls). -/
def pyIsSpace (c : Char) : Bool :=
  reSpace c || (decide (0x1C ≤ c.toNat) && decide (c.toNat ≤ 0x1F))

/-- The emoji / pictograph code point ranges of the `emoji_pattern` regex in
`resume_models.py`. -/
def emojiRanges : List (Nat × Nat) :=
  [(0x1F600, 0x1F64F), (0x1F300, 0x1F5FF), (0x1F680, 0x1F6FF),
   (0x1F1E0, 0x1F1FF), (0x2702, 0x27B0), (0x24C2, 0x1F251)]

/-- One character of the emoji character class. -/
def isEmojiChar (c : Char) : Bool :=
  emojiRanges.any (fun r => decide (r.1 ≤ c.toNat) && decide (c.toNat ≤ r.2))

/-- `emoji_pattern.search(v)` finds a match iff some character of `v` lies
in one of the ranges. -/
def containsEmoji (s : String) : Bool :=
  s.data.any isEmojiChar

/-- Splitter behind Python `str.split()` (no separator argument): maximal
runs of non-whitespace characters; empty tokens are discarded. -/
def pySplitAux : List Char → List Char → List (List Char)
  | [], acc => if acc.isEmpty then [] else [acc.reverse]
  | c :: cs, acc =>
    if pyIsSpace c then
      if acc.isEmpty then pySplitAux cs [] else acc.reverse :: pySplitAux cs []
    else pySplitAux cs (c :: acc)

/-- Python `v.split()`. -/
def pySplit (s : String) : List String :=
  (pySplitAux s.data []).map (fun l => String.mk l)

/-- `len(v.split())`, the word count of the summary rule. -/
def wordCount (s : String) : Nat :=
  (pySplitAux s.data []).length

/-- Python `v.strip()`: drop whitespace from both ends. -/
def pyStrip (s : String) : String :=
  String.mk (((s.data.dropWhile pyIsSpace).reverse.dropWhile pyIsSpace).reverse)

/-- Splitter behind Python `v.split(sep)` for a one-character separator:
splits at every occurrence, keeping empty pieces. -/
def splitSepAux (sep : Char) : List Char → List Char → List (List Char)
  | [], acc => [acc.reverse]
  | c :: cs, acc =>
    if c = sep then acc.reverse :: splitSepAux sep cs []
    else splitSepAux sep cs (c :: acc)

/-- Python `v.split(',')`. -/
def splitComma (s : String) : List String :=
  (splitSepAux ',' s.data []).map (fun l => String.mk l)

/-- Python `c in v` for a single character. -/
def containsChar (s : String) (c : Char) : Bool :=
  s.data.any (fun x => x = c)

/-- List-level check that `needle` occurs at the front of `hay`. -/
def startsWithCs : List Char → List Char → Bool
  | [], _ => true
  | _ :: _, [] => false
  | a :: as, b :: bs => a = b && startsWithCs as bs

/-- List-level substring occurrence check. -/
def containsCs (needle : List Char) : List Char → Bool
  | [] => startsWithCs needle []
  | c :: rest => startsWithCs needle (c :: rest) || containsCs needle rest

/-- Python `needle in hay` for strings. -/
def containsStr (needle hay : String) : Bool :=
  containsCs needle.data hay.data

/-- The date pattern of the source, `[A-Z]` range test. -/
def isUpperAZ (c : Char) : Bool :=
  decide ('A' ≤ c) && decide (c ≤ 'Z')

/-- Matches the anchored regex of `start_date` / `graduation_date` / `date`
fields: three `A-Z` letters, one literal space, four `\d` digits. -/
def matchesDatePattern (s : String) : Bool :=
  match s.data with
  | [a, b, c, sp, d1, d2, d3, d4] =>
    isUpperAZ a && isUpperAZ b && isUpperAZ c && sp = ' ' &&
    reDigit d1 && reDigit d2 && reDigit d3 && reDigit d4
  | _ => false

/-- Matches the anchored regex of `end_date` fields: the date pattern or the
literal alternative `Present`. -/
def matchesEndDatePattern (s : String) : Bool :=
  matchesDatePattern s || s = "Present"

/-- Matches the anchored `email` regex of `HeaderModel`: a nonempty
at-sign-free local part, one at sign, and a domain part containing a dot
with nonempty pieces on both sides. -/
def emailOk (s : String) : Bool :=
  match splitSepAux '@' s.data [] with
  | [a, b] => !a.isEmpty && !b.isEmpty && ((b.drop 1).dropLast.any (fun c => c = '.'))
  | _ => false

/-- One character of the `phone` regex character class. -/
def phoneCharOk (c : Char) : Bool :=
  reDigit c || reSpace c || c = '-' || c = '(' || c = ')'

/-- Matches the anchored `phone` regex of `HeaderModel`: an optional
leading plus sign followed by one or more digit / whitespace / dash /
parenthesis characters. -/
def phoneOk (s : String) : Bool :=
  match s.data with
  | '+' :: rest => !rest.isEmpty && rest.all phoneCharOk
  | l => !l.isEmpty && l.all phoneCharOk

/-- Run a list of attached after-validators in declaration order; the first
raised `ValueError` message wins. -/
def runChecks {α : Type} : List (α → Option String) → α → Option String
  | [], _ => none
  | f :: fs, v =>
    match f v with
    | some m => some m
    | none => runChecks fs v

/-- Core constraints of a pydantic string field plus its after-validators. -/
structure StrSpec where
  minLen : Option Nat := none
  maxLen : Option Nat := none
  pattern : Option (String → Bool) := none
  patternText : String := ""
  checks : List (String → Option String) := []

/-- Pluralized unit of the string length error messages. -/
def charsWord (n : Nat) : String :=
  if n = 1 then " character" else " characters"

/-- Message of the `string_too_short` core error. -/
def strTooShortMsg (n : Nat) : String :=
  "String should have at least " ++ toString n ++ charsWord n

/-- Message of the `string_too_long` core error. -/
def strTooLongMsg (n : Nat) : String :=
  "String should have at most " ++ toString n ++ charsWord n

/-- Message of the `string_pattern_mismatch` core error. -/
def patternMismatchMsg (p : String) : String :=
  "String should match pattern " ++ "'" ++ p ++ "'"

/-- Message wrapper applied to a `ValueError` raised by a field validator. -/
def valueError (msg : String) : String :=
  "Value error, " ++ msg

/-- Stage four of string-field validation: the attached after-validators,
wrapped as a pydantic `value_error`. -/
def strFieldErrChecks (spec : StrSpec) (v : String) : Option (String × String) :=
  (runChecks spec.checks v).map (fun m => (valueError m, "value_error"))

/-- Stage three of string-field validation: the `pattern` constraint. -/
def strFieldErrPat (spec : StrSpec) (v : String) : Option (String × String) :=
  match spec.pattern with
  | some ok =>
    if ok v then strFieldErrChecks spec v
    else some (patternMismatchMsg spec.patternText, "string_pattern_mismatch")
  | none => strFieldErrChecks spec v

/-- Stage two of string-field validation: the `max_length` constraint. -/
def strFieldErrMax (spec : StrSpec) (v : String) : Option (String × String) :=
  match spec.maxLen with
  | some n =>
    if n < v.data.length then some (strTooLongMsg n, "string_too_long")
    else strFieldErrPat spec v
  | none => strFieldErrPat spec v

/-- Validate one already-coerced string against a field spec: core
constraints first (`min_length`, `max_length`, `pattern` in order), then
the attached validators; the result is at most one `(message, type)`
error. -/
def strFieldErr (spec : StrSpec) (v : String) : Option (String × String) :=
  match spec.minLen with
  | some n =>
    if v.data.length < n then some (strTooShortMsg n, "string_too_short")
    else strFieldErrMax spec v
  | none => strFieldErrMax spec v

/-- Validate a required string field of a model: missing key, non-string
input and constraint violations each yield one error entry. -/
def reqStrField (kvs : List (String × Raw)) (name : String) (spec : StrSpec) :
    List VError × Option String :=
  match getKey kvs name with
  | none => ([⟨name, "Field required", "missing"⟩], none)
  | some (Raw.str v) =>
    match strFieldErr spec v with
    | some mt => ([⟨name, mt.1, mt.2⟩], none)
    | none => ([], some v)
  | some _ => ([⟨name, "Input should be a valid string", "string_type"⟩], none)

/-- Validate an `Optional[str]` field with default `None`: an absent key or
an explicit null passes as `none` without running the constraints. -/
def optStrField (kvs : List (String × Raw)) (name : String) (spec : StrSpec) :
    List VError × Option (Option String) :=
  match getKey kvs name with
  | none => ([], some none)
  | some Raw.null => ([], some none)
  | some (Raw.str v) =>
    match strFieldErr spec v with
    | some mt => ([⟨name, mt.1, mt.2⟩], none)
    | none => ([], some (some v))
  | some _ => ([⟨name, "Input should be a valid string", "string_type"⟩], none)

/-- Prepend a path segment to every error of a nested validation, using the
dotted-path join of the endpoint formatter. -/
def addPath (p : String) (es : List VError) : List VError :=
  es.map (fun e => { e with field := if e.field.data.isEmpty then p else p ++ "." ++ e.field })

/-- The `validate_no_emojis_icons` validator shared by most models:
reject any value containing an emoji-class character. -/
def validate_no_emojis_icons (v : String) : Option String :=
  if containsEmoji v then some "Content cannot contain emojis, icons, or graphics"
  else none

/-- `ExpertiseModel.validate_word_count`: enforce the 80-120 word count. -/
def validate_word_count (v : String) : Option String :=
  if 80 ≤ wordCount v && wordCount v ≤ 120 then none
  else some ("Summary must be 80-120 words, got " ++ toString (wordCount v))

/-- Per-token emoji scan of `SkillsModel.validate_comma_separated_format`. -/
def skillsEmojiLoop : List String → Option String
  | [] => none
  | sk :: rest =>
    if containsEmoji sk then some "Skills cannot contain emojis, icons, or graphics"
    else skillsEmojiLoop rest

/-- `SkillsModel.validate_comma_separated_format`: the stripped string must
contain a comma, then every trimmed comma-separated token is emoji-scanned. -/
def validate_comma_separated_format (v : String) : Option String :=
  if !containsChar (pyStrip v) ',' then some "Skills must be in comma-separated format"
  else skillsEmojiLoop ((splitComma v).map pyStrip)

/-- Per-element loop of `ExperienceModel.validate_responsibilities`: each
element is emoji-scanned and then checked non-blank, stopping at the first
offending element. -/
def respLoop : List String → Option String
  | [] => none
  | r :: rest =>
    if containsEmoji r then some "Responsibilities cannot contain emojis, icons, or graphics"
    else if pyStrip r = "" then some "Responsibilities cannot be empty"
    else respLoop rest

/-- `ExperienceModel.validate_responsibilities`. -/
def validate_responsibilities (v : List String) : Option String :=
  if v.length < 3 then some "Minimum 3 responsibilities required"
  else respLoop v

/-- `ResumeModel.validate_required_sections_not_empty` for one section. -/
def validate_required_sections_not_empty {α : Type} (fieldName : String) (v : List α) :
    Option String :=
  if v.isEmpty then some (fieldName ++ " section cannot be empty") else none

/-- `ResumeModel.validate_experience_order`. -/
def validate_experience_order {α : Type} (v : List α) : Option String :=
  if v.isEmpty then some "Experience section is required" else none

/-- `HeaderModel` of the source. -/
structure HeaderModel where
  name : String
  title : String
  email : String
  phone : String
  location : String
deriving Repr, DecidableEq

/-- `ExpertiseModel` of the source. -/
structure ExpertiseModel where
  summary : String
deriving Repr, DecidableEq

/-- `SkillsModel` of the source. -/
structure SkillsModel where
  skills : String
deriving Repr, DecidableEq

/-- `ExperienceModel` of the source. -/
structure ExperienceModel where
  company : String
  position : String
  start_date : String
  end_date : Option String
  responsibilities : List String
deriving Repr, DecidableEq

/-- `ProjectModel` of the source. -/
structure ProjectModel where
  name : String
  description : String
  technologies : String
  start_date : String
  end_date : Option String
deriving Repr, DecidableEq

/-- `EducationModel` of the source. -/
structure EducationModel where
  institution : String
  degree : String
  field_of_study : String
  graduation_date : String
  gpa : Option String
deriving Repr, DecidableEq

/-- `AwardModel` of the source. -/
structure AwardModel where
  title : String
  organization : String
  date : String
  description : Option String
deriving Repr, DecidableEq

/-- Field specs of `HeaderModel.name`. -/
def headerNameSpec : StrSpec :=
  { minLen := some 1, maxLen := some 100, checks := [validate_no_emojis_icons] }

/-- Field specs of `HeaderModel.title`. -/
def headerTitleSpec : StrSpec :=
  { minLen := some 1, maxLen := some 150, checks := [validate_no_emojis_icons] }

/-- Field specs of `HeaderModel.email`. -/
def headerEmailSpec : StrSpec :=
  { pattern := some emailOk, patternText := "^[^@]+@[^@]+\\.[^@]+$" }

/-- Field specs of `HeaderModel.phone`. -/
def headerPhoneSpec : StrSpec :=
  { pattern := some phoneOk, patternText := "^\\+?[\\d\\s\\-\\(\\)]+$" }

/-- Field specs of `HeaderModel.location`. -/
def headerLocationSpec : StrSpec :=
  { minLen := some 1, maxLen := some 100, checks := [validate_no_emojis_icons] }

/-- Validate the fields of `HeaderModel` against a raw mapping. -/
def validateHeaderFields (kvs : List (String × Raw)) : List VError × Option HeaderModel :=
  let rn := reqStrField kvs "name" headerNameSpec
  let rt := reqStrField kvs "title" headerTitleSpec
  let re := reqStrField kvs "email" headerEmailSpec
  let rp := reqStrField kvs "phone" headerPhoneSpec
  let rl := reqStrField kvs "location" headerLocationSpec
  (rn.1 ++ rt.1 ++ re.1 ++ rp.1 ++ rl.1,
   match rn.2, rt.2, re.2, rp.2, rl.2 with
   | some a, some b, some c, some d, some e => some ⟨a, b, c, d, e⟩
   | _, _, _, _, _ => none)

/-- Validate a raw value as a `HeaderModel`. -/
def validateHeader : Raw → List VError × Option HeaderModel
  | Raw.obj kvs => validateHeaderFields kvs
  | _ => ([⟨"", "Input should be a valid dictionary or instance of HeaderModel", "model_type"⟩], none)

/-- Field spec of `ExpertiseModel.summary`: `min_length=1` plus the
word-count and emoji validators, in declaration order. -/
def summarySpec : StrSpec :=
  { minLen := some 1, checks := [validate_word_count, validate_no_emojis_icons] }

/-- Validate the fields of `ExpertiseModel`. -/
def validateExpertiseFields (kvs : List (String × Raw)) : List VError × Option ExpertiseModel :=
  let rs := reqStrField kvs "summary" summarySpec
  (rs.1, rs.2.map (fun s => ⟨s⟩))

/-- Validate a raw value as an `ExpertiseModel`. -/
def validateExpertise : Raw → List VError × Option ExpertiseModel
  | Raw.obj kvs => validateExpertiseFields kvs
  | _ => ([⟨"", "Input should be a valid dictionary or instance of ExpertiseModel", "model_type"⟩], none)

/-- Field spec of `SkillsModel.skills`. -/
def skillsSpec : StrSpec :=
  { minLen := some 1, checks := [validate_comma_separated_format] }

/-- Validate the fields of `SkillsModel`. -/
def validateSkillsFields (kvs : List (String × Raw)) : List VError × Option SkillsModel :=
  let rs := reqStrField kvs "skills" skillsSpec
  (rs.1, rs.2.map (fun s => ⟨s⟩))

/-- Validate a raw value as a `SkillsModel`. -/
def validateSkills : Raw → List VError × Option SkillsModel
  | Raw.obj kvs => validateSkillsFields kvs
  | _ => ([⟨"", "Input should be a valid dictionary or instance of SkillsModel", "model_type"⟩], none)

/-- Field spec of `ExperienceModel.company` / `position`. -/
def companySpec : StrSpec :=
  { minLen := some 1, maxLen := some 100, checks := [validate_no_emojis_icons] }

/-- Field spec of a required month-year date field. -/
def startDateSpec : StrSpec :=
  { pattern := some matchesDatePattern, patternText := "^[A-Z]{3} \\d{4}$" }

/-- Field spec of an optional end-date field. -/
def endDateSpec : StrSpec :=
  { pattern := some matchesEndDatePattern, patternText := "^[A-Z]{3} \\d{4}$|^Present$" }

/-- Coerce the elements of a raw list to strings, reporting an indexed
error for every non-string element. -/
def strElems : List Raw → Nat → List VError × Option (List String)
  | [], _ => ([], some [])
  | Raw.str s :: rest, i =>
    let r := strElems rest (i + 1)
    (r.1, r.2.map (fun vs => s :: vs))
  | _ :: rest, i =>
    let r := strElems rest (i + 1)
    (⟨toString i, "Input should be a valid string", "string_type"⟩ :: r.1, none)

/-- Validate the `responsibilities` field: required `List[str]` with
`min_length=3` followed by `validate_responsibilities`. -/
def respField (kvs : List (String × Raw)) : List VError × Option (List String) :=
  match getKey kvs "responsibilities" with
  | none => ([⟨"responsibilities", "Field required", "missing"⟩], none)
  | some (Raw.list xs) =>
    let r := strElems xs 0
    match r.2 with
    | some vs =>
      if vs.length < 3 then
        ([⟨"responsibilities",
           "List should have at least 3 items after validation, not " ++ toString vs.length,
           "too_short"⟩], none)
      else
        match validate_responsibilities vs with
        | some m => ([⟨"responsibilities", valueError m, "value_error"⟩], none)
        | none => ([], some vs)
    | none => (addPath "responsibilities" r.1, none)
  | some _ => ([⟨"responsibilities", "Input should be a valid list", "list_type"⟩], none)

/-- Validate the fields of `ExperienceModel`. -/
def validateExperienceFields (kvs : List (String × Raw)) : List VError × Option ExperienceModel :=
  let rc := reqStrField kvs "company" companySpec
  let rp := reqStrField kvs "position" companySpec
  let rs := reqStrField kvs "start_date" startDateSpec
  let re := optStrField kvs "end_date" endDateSpec
  let rr := respField kvs
  (rc.1 ++ rp.1 ++ rs.1 ++ re.1 ++ rr.1,
   match rc.2, rp.2, rs.2, re.2, rr.2 with
   | some a, some b, some c, some d, some e => some ⟨a, b, c, d, e⟩
   | _, _, _, _, _ => none)

/-- Validate a raw value as an `ExperienceModel`. -/
def validateExperience : Raw → List VError × Option ExperienceModel
  | Raw.obj kvs => validateExperienceFields kvs
  | _ => ([⟨"", "Input should be a valid dictionary or instance of ExperienceModel", "model_type"⟩], none)

/-- Field spec of `ProjectModel.name`. -/
def projectNameSpec : StrSpec :=
  { minLen := some 1, maxLen := some 100, checks := [validate_no_emojis_icons] }

/-- Field spec of `ProjectModel.description`. -/
def projectDescriptionSpec : StrSpec :=
  { minLen := some 1, maxLen := some 500, checks := [validate_no_emojis_icons] }

/-- Field spec of `ProjectModel.technologies`. -/
def technologiesSpec : StrSpec :=
  { minLen := some 1, checks := [validate_no_emojis_icons] }

/-- Validate the fields of `ProjectModel`. -/
def validateProjectFields (kvs : List (String × Raw)) : List VError × Option ProjectModel :=
  let rn := reqStrField kvs "name" projectNameSpec
  let rd := reqStrField kvs "description" projectDescriptionSpec
  let rt := reqStrField kvs "technologies" technologiesSpec
  let rs := reqStrField kvs "start_date" startDateSpec
  let re := optStrField kvs "end_date" endDateSpec
  (rn.1 ++ rd.1 ++ rt.1 ++ rs.1 ++ re.1,
   match rn.2, rd.2, rt.2, rs.2, re.2 with
   | some a, some b, some c, some d, some e => some ⟨a, b, c, d, e⟩
   | _, _, _, _, _ => none)

/-- Validate a raw value as a `ProjectModel`. -/
def validateProject : Raw → List VError × Option ProjectModel
  | Raw.obj kvs => validateProjectFields kvs
  | _ => ([⟨"", "Input should be a valid dictionary or instance of ProjectModel", "model_type"⟩], none)

/-- Field spec of the three 100-character education text fields. -/
def educationTextSpec : StrSpec :=
  { minLen := some 1, maxLen := some 100, checks := [validate_no_emojis_icons] }

/-- Field spec of `EducationModel.gpa` (optional, emoji-checked). -/
def gpaSpec : StrSpec :=
  { maxLen := some 10, checks := [validate_no_emojis_icons] }

/-- Validate the fields of `EducationModel`. -/
def validateEducationFields (kvs : List (String × Raw)) : List VError × Option EducationModel :=
  let ri := reqStrField kvs "institution" educationTextSpec
  let rd := reqStrField kvs "degree" educationTextSpec
  let rf := reqStrField kvs "field_of_study" educationTextSpec
  let rg := reqStrField kvs "graduation_date" startDateSpec
  let rp := optStrField kvs "gpa" gpaSpec
  (ri.1 ++ rd.1 ++ rf.1 ++ rg.1 ++ rp.1,
   match ri.2, rd.2, rf.2, rg.2, rp.2 with
   | some a, some b, some c, some d, some e => some ⟨a, b, c, d, e⟩
   | _, _, _, _, _ => none)

/-- Validate a raw value as an `EducationModel`. -/
def validateEducation : Raw → List VError × Option EducationModel
  | Raw.obj kvs => validateEducationFields kvs
  | _ => ([⟨"", "Input should be a valid dictionary or instance of EducationModel", "model_type"⟩], none)

/-- Field spec of `AwardModel.title` / `organization`. -/
def awardTextSpec : StrSpec :=
  { minLen := some 1, maxLen := some 100, checks := [validate_no_emojis_icons] }

/-- Field spec of `AwardModel.description` (optional, emoji-checked). -/
def awardDescriptionSpec : StrSpec :=
  { maxLen := some 200, checks := [validate_no_emojis_icons] }

/-- Validate the fields of `AwardModel`. -/
def validateAwardFields (kvs : List (String × Raw)) : List VError × Option AwardModel :=
  let rt := reqStrField kvs "title" awardTextSpec
  let ro := reqStrField kvs "organization" awardTextSpec
  let rd := reqStrField kvs "date" startDateSpec
  let rs := optStrField kvs "description" awardDescriptionSpec
  (rt.1 ++ ro.1 ++ rd.1 ++ rs.1,
   match rt.2, ro.2, rd.2, rs.2 with
   | some a, some b, some c, some d => some ⟨a, b, c, d⟩
   | _, _, _, _ => none)

/-- Validate a raw value as an `AwardModel`. -/
def validateAward : Raw → List VError × Option AwardModel
  | Raw.obj kvs => validateAwardFields kvs
  | _ => ([⟨"", "Input should be a valid dictionary or instance of AwardModel", "model_type"⟩], none)

/-- Validate the elements of a raw list against a model validator, indexing
each element's errors by its position. -/
def modelElems {α : Type} (f : Raw → List VError × Option α) :
    List Raw → Nat → List VError × Option (List α)
  | [], _ => ([], some [])
  | r :: rest, i =>
    let e := f r
    let tail := modelElems f rest (i + 1)
    (addPath (toString i) e.1 ++ tail.1,
     match e.2, tail.2 with
     | some v, some vs => some (v :: vs)
     | _, _ => none)

/-- Validate a required `List[Model]` field with its attached validators. -/
def listModelField {α : Type} (kvs : List (String × Raw)) (name : String)
    (f : Raw → List VError × Option α) (checks : List (List α → Option String)) :
    List VError × Option (List α) :=
  match getKey kvs name with
  | none => ([⟨name, "Field required", "missing"⟩], none)
  | some (Raw.list xs) =>
    let r := modelElems f xs 0
    match r.2 with
    | some vs =>
      match runChecks checks vs with
      | some m => ([⟨name, valueError m, "value_error"⟩], none)
      | none => ([], some vs)
    | none => (addPath name r.1, none)
  | some _ => ([⟨name, "Input should be a valid list", "list_type"⟩], none)

/-- Validate a model-typed field of the top-level resume. -/
def modelField {α : Type} (kvs : List (String × Raw)) (name : String)
    (f : Raw → List VError × Option α) : List VError × Option α :=
  match getKey kvs name with
  | none => ([⟨name, "Field required", "missing"⟩], none)
  | some r =>
    let e := f r
    (addPath name e.1, e.2)

/-- Validate the `awards` field: `Optional[List[AwardModel]]` with default
`[]` and no attached validators. -/
def awardsField (kvs : List (String × Raw)) : List VError × Option (Option (List AwardModel)) :=
  match getKey kvs "awards" with
  | none => ([], some (some []))
  | some Raw.null => ([], some none)
  | some (Raw.list xs) =>
    let r := modelElems validateAward xs 0
    match r.2 with
    | some vs => ([], some (some vs))
    | none => (addPath "awards" r.1, none)
  | some _ => ([⟨"awards", "Input should be a valid list", "list_type"⟩], none)

/-- `ResumeModel` of the source. -/
structure ResumeModel where
  header : HeaderModel
  expertise : ExpertiseModel
  skills : SkillsModel
  experience : List ExperienceModel
  projects : List ProjectModel
  education : List EducationModel
  awards : Option (List AwardModel)
deriving Repr, DecidableEq

/-- The declared field names of `ResumeModel` (its closed schema). -/
def resumeFieldNames : List String :=
  ["header", "expertise", "skills", "experience", "projects", "education", "awards"]

/-- The `extra_forbidden` errors of the top-level closed-schema check: one
per undeclared key, in input order. -/
def extraKeyErrors (kvs : List (String × Raw)) : List VError :=
  (kvs.filter (fun kv => !resumeFieldNames.contains kv.1)).map
    (fun kv => ⟨kv.1, "Extra inputs are not permitted", "extra_forbidden"⟩)

/-- Validate a raw mapping as a `ResumeModel`: every declared field in
declaration order, then the `extra=forbid` check on the remaining keys. -/
def validateResumeObj (kvs : List (String × Raw)) : List VError × Option ResumeModel :=
  let h := modelField kvs "header" validateHeader
  let ex := modelField kvs "expertise" validateExpertise
  let sk := modelField kvs "skills" validateSkills
  let exp := listModelField kvs "experience" validateExperience
    [validate_required_sections_not_empty "experience", validate_experience_order]
  let pr := listModelField kvs "projects" validateProject
    [validate_required_sections_not_empty "projects"]
  let ed := listModelField kvs "education" validateEducation
    [validate_required_sections_not_empty "education"]
  let aw := awardsField kvs
  (h.1 ++ ex.1 ++ sk.1 ++ exp.1 ++ pr.1 ++ ed.1 ++ aw.1 ++ extraKeyErrors kvs,
   match h.2, ex.2, sk.2, exp.2, pr.2, ed.2, aw.2 with
   | some a, some b, some c, some d, some e, some f, some g => some ⟨a, b, c, d, e, f, g⟩
   | _, _, _, _, _, _, _ => none)

/-- The structured response of the `/validate` endpoint. -/
structure ValidationResponse where
  valid : Bool
  errors : List VError
  data : Option ResumeModel
deriving Repr, DecidableEq

/-- `validate_resume` of `endpoints.py`: construct the model; on success
return the dumped data, otherwise the formatted error list. -/
def validate_resume (kvs : List (String × Raw)) : ValidationResponse :=
  let r := validateResumeObj kvs
  match r.1 with
  | [] => ⟨true, [], r.2⟩
  | es => ⟨false, es, none⟩

/-- A 90-word summary used by the concrete end-to-end documents. -/
def goodSummary : String := String.intercalate " " (List.replicate 90 "word")

/-- A fully valid header section. -/
def goodHeader : Raw := Raw.obj
  [("name", Raw.str "John Smith"), ("title", Raw.str "Software Engineer"),
   ("email", Raw.str "john@example.com"), ("phone", Raw.str "+1 (555) 123-4567"),
   ("location", Raw.str "Pune, India")]

/-- A fully valid experience entry. -/
def goodExperience : Raw := Raw.obj
  [("company", Raw.str "Acme Corp"), ("position", Raw.str "Developer"),
   ("start_date", Raw.str "JAN 2020"), ("end_date", Raw.str "Present"),
   ("responsibilities", Raw.list
     [Raw.str "Built the core service", Raw.str "Led code reviews",
      Raw.str "Improved test coverage"])]

/-- A fully valid project entry. -/
def goodProject : Raw := Raw.obj
  [("name", Raw.str "Resume Builder"), ("description", Raw.str "A resume builder tool"),
   ("technologies", Raw.str "Python, FastAPI"), ("start_date", Raw.str "FEB 2021"),
   ("end_date", Raw.str "MAR 2022")]

/-- A fully valid education entry. -/
def goodEducation : Raw := Raw.obj
  [("institution", Raw.str "State University"), ("degree", Raw.str "BSc"),
   ("field_of_study", Raw.str "Computer Science"),
   ("graduation_date", Raw.str "MAY 2018"), ("gpa", Raw.str "3.8")]

/-- A fully valid award entry. -/
def goodAward : Raw := Raw.obj
  [("title", Raw.str "Employee of the Year"), ("organization", Raw.str "Acme Corp"),
   ("date", Raw.str "DEC 2021")]

/-- A fully valid resume document: every section present and every rule
satisfied. -/
def goodResumeKvs : List (String × Raw) :=
  [("header", goodHeader),
   ("expertise", Raw.obj [("summary", Raw.str goodSummary)]),
   ("skills", Raw.obj [("skills", Raw.str "Python, JavaScript, SQL")]),
   ("experience", Raw.list [goodExperience]),
   ("projects", Raw.list [goodProject]),
   ("education", Raw.list [goodEducation]),
   ("awards", Raw.list [goodAward])]

/-- The month-year grammar exactly as the claim words it: three uppercase
ASCII letters, one ASCII space, four ASCII digits. Stated from the claim
text for comparison with the pattern the code evaluates. -/
def specAsciiDateGrammar (s : String) : Bool :=
  match s.data with
  | [a, b, c, sp, d1, d2, d3, d4] =>
    isUpperAZ a && isUpperAZ b && isUpperAZ c && sp = ' ' &&
    d1.isDigit && d2.isDigit && d3.isDigit && d4.isDigit
  | _ => false

/-- The declared field names of `HeaderModel`. -/
def headerFieldNames : List String := ["name", "title", "email", "phone", "location"]

/-- The declared field names of `ExperienceModel`. -/
def experienceFieldNames : List String :=
  ["company", "position", "start_date", "end_date", "responsibilities"]

/-- The declared field names of `ProjectModel`. -/
def projectFieldNames : List String :=
  ["name", "description", "technologies", "start_date", "end_date"]

/-- The declared field names of `EducationModel`. -/
def educationFieldNames : List String :=
  ["institution", "degree", "field_of_study", "graduation_date", "gpa"]

/-- The declared field names of `AwardModel`. -/
def awardFieldNames : List String := ["title", "organization", "date", "description"]

/-- A header carrying an undeclared `nickname` key alongside the declared,
fully valid fields. -/
def nestedExtraHeader : Raw := Raw.obj
  [("name", Raw.str "John Smith"), ("title", Raw.str "Software Engineer"),
   ("email", Raw.str "john@example.com"), ("phone", Raw.str "+1 (555) 123-4567"),
   ("location", Raw.str "Pune, India"), ("nickname", Raw.str "JS")]

/-- The fully valid resume document with an undeclared key added inside the
header object. -/
def nestedExtraDoc : List (String × Raw) :=
  [("header", nestedExtraHeader),
   ("expertise", Raw.obj [("summary", Raw.str goodSummary)]),
   ("skills", Raw.obj [("skills", Raw.str "Python, JavaScript, SQL")]),
   ("experience", Raw.list [goodExperience]),
   ("projects", Raw.list [goodProject]),
   ("education", Raw.list [goodEducation]),
   ("awards", Raw.list [goodAward])]

/-- The valid document with exactly three independent violations in three
distinct declared fields: a 2-word summary, a comma-free skills string, and
a 2-element responsibilities list. -/
def threeViolationDoc : List (String × Raw) :=
  [("header", goodHeader),
   ("expertise", Raw.obj [("summary", Raw.str "too short")]),
   ("skills", Raw.obj [("skills", Raw.str "Python")]),
   ("experience", Raw.list [Raw.obj
     [("company", Raw.str "Acme"), ("position", Raw.str "Dev"),
      ("start_date", Raw.str "JAN 2020"),
      ("responsibilities", Raw.list [Raw.str "a", Raw.str "b"])]]),
   ("projects", Raw.list [goodProject]),
   ("education", Raw.list [goodEducation]),
   ("awards", Raw.list [goodAward])]

/-- The typed aggregate produced by validating `goodResumeKvs`. -/
def goodResumeModel : ResumeModel :=
  ⟨⟨"John Smith", "Software Engineer", "john@example.com", "+1 (555) 123-4567", "Pune, India"⟩,
   ⟨goodSummary⟩, ⟨"Python, JavaScript, SQL"⟩,
   [⟨"Acme Corp", "Developer", "JAN 2020", some "Present",
     ["Built the core service", "Led code reviews", "Improved test coverage"]⟩],
   [⟨"Resume Builder", "A resume builder tool", "Python, FastAPI", "FEB 2021", some "MAR 2022"⟩],
   [⟨"State University", "BSc", "Computer Science", "MAY 2018", some "3.8"⟩],
   some [⟨"Employee of the Year", "Acme Corp", "DEC 2021", none⟩]⟩

/-- Echo reader for a required string field: the raw value itself, with no
rewriting. Together with the validators, this expresses that validation
echoes supplied values unchanged. -/
def echoStr : Option Raw → Option String
  | some (Raw.str s) => some s
  | _ => none

/-- Echo reader for an optional string field. -/
def echoOptStr : Option Raw → Option (Option String)
  | none => some none
  | some Raw.null => some none
  | some (Raw.str s) => some (some s)
  | _ => none

/-- Echo reader for a list of raw strings. -/
def echoStrElems : List Raw → Option (List String)
  | [] => some []
  | Raw.str s :: rest => (echoStrElems rest).map (fun vs => s :: vs)
  | _ => none

/-- Echo reader for the responsibilities field. -/
def echoStrList : Option Raw → Option (List String)
  | some (Raw.list xs) => echoStrElems xs
  | _ => none

/-- Echo reader for the header section. -/
def echoHeader : Raw → Option HeaderModel
  | Raw.obj kvs => do
    let a ← echoStr (getKey kvs "name")
    let b ← echoStr (getKey kvs "title")
    let c ← echoStr (getKey kvs "email")
    let d ← echoStr (getKey kvs "phone")
    let e ← echoStr (getKey kvs "location")
    pure ⟨a, b, c, d, e⟩
  | _ => none

/-- Echo reader for the expertise section. -/
def echoExpertise : Raw → Option ExpertiseModel
  | Raw.obj kvs => (echoStr (getKey kvs "summary")).map (fun s => ⟨s⟩)
  | _ => none

/-- Echo reader for the skills section. -/
def echoSkills : Raw → Option SkillsModel
  | Raw.obj kvs => (echoStr (getKey kvs "skills")).map (fun s => ⟨s⟩)
  | _ => none

/-- Echo reader for one experience entry. -/
def echoExperience : Raw → Option ExperienceModel
  | Raw.obj kvs => do
    let a ← echoStr (getKey kvs "company")
    let b ← echoStr (getKey kvs "position")
    let c ← echoStr (getKey kvs "start_date")
    let d ← echoOptStr (getKey kvs "end_date")
    let e ← echoStrList (getKey kvs "responsibilities")
    pure ⟨a, b, c, d, e⟩
  | _ => none

/-- Echo reader for one project entry. -/
def echoProject : Raw → Option ProjectModel
  | Raw.obj kvs => do
    let a ← echoStr (getKey kvs "name")
    let b ← echoStr (getKey kvs "description")
    let c ← echoStr (getKey kvs "technologies")
    let d ← echoStr (getKey kvs "start_date")
    let e ← echoOptStr (getKey kvs "end_date")
    pure ⟨a, b, c, d, e⟩
  | _ => none

/-- Echo reader for one education entry. -/
def echoEducation : Raw → Option EducationModel
  | Raw.obj kvs => do
    let a ← echoStr (getKey kvs "institution")
    let b ← echoStr (getKey kvs "degree")
    let c ← echoStr (getKey kvs "field_of_study")
    let d ← echoStr (getKey kvs "graduation_date")
    let e ← echoOptStr (getKey kvs "gpa")
    pure ⟨a, b, c, d, e⟩
  | _ => none

/-- Echo reader for one award entry. -/
def echoAward : Raw → Option AwardModel
  | Raw.obj kvs => do
    let a ← echoStr (getKey kvs "title")
    let b ← echoStr (getKey kvs "organization")
    let c ← echoStr (getKey kvs "date")
    let d ← echoOptStr (getKey kvs "description")
    pure ⟨a, b, c, d⟩
  | _ => none

/-- Echo reader for a list of model entries. -/
def echoList {α : Type} (f : Raw → Option α) : List Raw → Option (List α)
  | [] => some []
  | r :: rest => do
    let v ← f r
    let vs ← echoList f rest
    pure (v :: vs)

/-- Echo reader for a required model-list field. -/
def echoModelList {α : Type} (f : Raw → Option α) : Option Raw → Option (List α)
  | some (Raw.list xs) => echoList f xs
  | _ => none

/-- Echo reader for the awards field, including its default. -/
def echoAwards (kvs : List (String × Raw)) : Option (Option (List AwardModel)) :=
  match getKey kvs "awards" with
  | none => some (some [])
  | some Raw.null => some none
  | some (Raw.list xs) => (echoList echoAward xs).map some
  | some _ => none

/-- Echo reader for the whole document: every field value read back
exactly as supplied. -/
def echoResumeObj (kvs : List (String × Raw)) : Option ResumeModel := do
  let h ← (getKey kvs "header").bind echoHeader
  let ex ← (getKey kvs "expertise").bind echoExpertise
  let sk ← (getKey kvs "skills").bind echoSkills
  let exp ← echoModelList echoExperience (getKey kvs "experience")
  let pr ← echoModelList echoProject (getKey kvs "projects")
  let ed ← echoModelList echoEducation (getKey kvs "education")
  let aw ← echoAwards kvs
  pure ⟨h, ex, sk, exp, pr, ed, aw⟩

/-- Every token produced by the whitespace splitter is nonempty. -/
theorem pySplitAux_ne_nil (l : List Char) :
    ∀ acc t, t ∈ pySplitAux l acc → t ≠ [] := by
  induction l with
  | nil =>
    intro acc t ht
    simp only [pySplitAux] at ht
    by_cases hacc : acc.isEmpty
    · simp [hacc] at ht
    · simp [hacc] at ht
      subst ht
      simp only [List.isEmpty_eq_true] at hacc
      simp [hacc]
  | cons c cs ih =>
    intro acc t ht
    simp only [pySplitAux] at ht
    by_cases hsp : pyIsSpace c
    · simp only [hsp, if_true] at ht
      by_cases hacc : acc.isEmpty
      · simp only [hacc, if_true] at ht
        exact ih [] t ht
      · simp only [hacc, if_false] at ht
        rcases List.mem_cons.mp ht with h | h
        · subst h
          simp only [List.isEmpty_eq_true] at hacc
          simp [hacc]
        · exact ih [] t h
    · simp only [hsp, if_false] at ht
      exact ih (c :: acc) t ht

/-- Every token of Python `v.split()` is a nonempty string. -/
theorem pySplit_tokens_ne_empty (s : String) : ∀ t ∈ pySplit s, t ≠ "" := by
  intro t ht
  simp only [pySplit, List.mem_map] at ht
  obtain ⟨l, hl, rfl⟩ := ht
  have hne := pySplitAux_ne_nil s.data [] l hl
  intro h
  apply hne
  have hd : (String.mk l).data = ("" : String).data := by rw [h]
  simpa using hd

/-- The empty needle occurs in every haystack. -/
theorem containsCs_nil (l : List Char) : containsCs [] l = true := by
  cases l with
  | nil => simp [containsCs, startsWithCs]
  | cons c cs => simp [containsCs, startsWithCs]

/-- A front match extends along a longer haystack. -/
theorem startsWithCs_append (n l l2 : List Char) (h : startsWithCs n l = true) :
    startsWithCs n (l ++ l2) = true := by
  induction n generalizing l with
  | nil => simp [startsWithCs]
  | cons a as ih =>
    cases l with
    | nil => simp [startsWithCs] at h
    | cons b bs =>
      simp only [startsWithCs, Bool.and_eq_true] at h ⊢
      exact ⟨h.1, ih bs h.2⟩

/-- Every list starts with itself. -/
theorem startsWithCs_refl (n : List Char) : startsWithCs n n = true := by
  induction n with
  | nil => simp [startsWithCs]
  | cons a as ih => simp [startsWithCs, ih]

/-- A substring of the left part occurs in the concatenation. -/
theorem containsCs_append_left (n l1 l2 : List Char) (h : containsCs n l1 = true) :
    containsCs n (l1 ++ l2) = true := by
  induction l1 with
  | nil =>
    simp only [containsCs] at h
    cases n with
    | nil => exact containsCs_nil l2
    | cons c cs => simp [startsWithCs] at h
  | cons c cs ih =>
    simp only [containsCs, Bool.or_eq_true] at h ⊢
    rcases h with h | h
    · exact Or.inl (startsWithCs_append _ _ _ h)
    · exact Or.inr (ih h)

/-- A suffix match occurs in the concatenation. -/
theorem containsCs_append_right (n pre l : List Char) (h : startsWithCs n l = true) :
    containsCs n (pre ++ l) = true := by
  induction pre with
  | nil =>
    cases l with
    | nil =>
      cases n with
      | nil => exact containsCs_nil []
      | cons c cs => simp [startsWithCs] at h
    | cons b bs =>
      simp only [List.nil_append, containsCs, Bool.or_eq_true]
      exact Or.inl h
  | cons p ps ih =>
    simp only [List.cons_append, containsCs, Bool.or_eq_true]
    exact Or.inr ih

/-- A string occurs as a substring of any string it terminates. -/
theorem containsStr_append_self (pre n : String) : containsStr n (pre ++ n) = true := by
  simp only [containsStr, String.data_append]
  exact containsCs_append_right n.data pre.data n.data (startsWithCs_refl n.data)

set_option maxRecDepth 100000 in
/-- C4: the summary word-count rule splits on runs of whitespace, discards
empty tokens, and accepts exactly the token counts in the closed interval
[80, 120]; every rejection message contains the computed count, so 79 and
121 tokens fail with messages containing the count while exactly 80 and
exactly 120 tokens pass. -/
theorem claim_C4_word_count (s : String) :
    (validate_word_count s = none ↔ 80 ≤ wordCount s ∧ wordCount s ≤ 120) ∧
    ((validate_word_count s).all fun m => containsStr (toString (wordCount s)) m) = true ∧
    wordCount s = (pySplit s).length ∧
    (∀ t ∈ pySplit s, t ≠ "") ∧
    validate_word_count (String.intercalate " " (List.replicate 80 "w")) = none ∧
    validate_word_count (String.intercalate " " (List.replicate 120 "w")) = none ∧
    (∃ m, validate_word_count (String.intercalate " " (List.replicate 79 "w")) = some m ∧
      containsStr "79" m = true) ∧
    (∃ m, validate_word_count (String.intercalate " " (List.replicate 121 "w")) = some m ∧
      containsStr "121" m = true) := by
  refine ⟨?_, ?_, by simp [wordCount, pySplit], pySplit_tokens_ne_empty s,
    by decide, by decide,
    ⟨"Summary must be 80-120 words, got 79", by decide, by decide⟩,
    ⟨"Summary must be 80-120 words, got 121", by decide, by decide⟩⟩
  · constructor
    · intro h
      unfold validate_word_count at h
      by_cases hc : (80 ≤ wordCount s && wordCount s ≤ 120) = true
      · simpa [Bool.and_eq_true, decide_eq_true_iff] using hc
      · rw [if_neg hc] at h
        exact absurd h (by simp)
    · intro h
      unfold validate_word_count
      rw [if_pos (by simp [h.1, h.2])]
  · unfold validate_word_count
    by_cases hc : (80 ≤ wordCount s && wordCount s ≤ 120) = true
    · rw [if_pos hc]
      rfl
    · rw [if_neg hc]
      simp only [Option.all]
      exact containsStr_append_self "Summary must be 80-120 words, got " (toString (wordCount s))

/-- Dropping a satisfied prefix cannot remove an element the predicate
rejects. -/
theorem mem_dropWhile_of_neg {p : Char → Bool} {a : Char} (hp : p a = false) :
    ∀ l : List Char, a ∈ l → a ∈ l.dropWhile p := by
  intro l h
  induction l with
  | nil => simp at h
  | cons b bs ih =>
    rw [List.dropWhile_cons]
    by_cases hb : p b
    · rw [if_pos hb]
      rcases List.mem_cons.mp h with h1 | h2
      · subst h1
        rw [hp] at hb
        simp at hb
      · exact ih h2
    · rw [if_neg hb]
      exact h

/-- Membership of a rejected element is invariant under `dropWhile`. -/
theorem mem_dropWhile_iff_of_neg {p : Char → Bool} {a : Char} (hp : p a = false)
    (l : List Char) : a ∈ l.dropWhile p ↔ a ∈ l := by
  constructor
  · intro h
    exact (List.dropWhile_sublist p).subset h
  · exact mem_dropWhile_of_neg hp l

/-- Python `strip()` preserves occurrence of any non-whitespace character;
in particular the comma test on the stripped skills string equals the comma
test on the raw string. -/
theorem containsChar_pyStrip (v : String) (c : Char) (hc : pyIsSpace c = false) :
    containsChar (pyStrip v) c = containsChar v c := by
  have hiff : containsChar (pyStrip v) c = true ↔ containsChar v c = true := by
    simp only [containsChar, pyStrip, List.any_eq_true, decide_eq_true_eq]
    constructor
    · rintro ⟨x, hx, rfl⟩
      refine ⟨x, ?_, rfl⟩
      rw [List.mem_reverse] at hx
      have h1 := (List.dropWhile_sublist pyIsSpace).subset hx
      rw [List.mem_reverse] at h1
      exact (List.dropWhile_sublist pyIsSpace).subset h1
    · rintro ⟨x, hx, rfl⟩
      refine ⟨x, ?_, rfl⟩
      rw [List.mem_reverse]
      apply mem_dropWhile_of_neg hc
      rw [List.mem_reverse]
      exact mem_dropWhile_of_neg hc _ hx
  cases h1 : containsChar (pyStrip v) c <;> cases h2 : containsChar v c
  · rfl
  · rw [h1, h2] at hiff
    simpa using hiff.mpr rfl
  · rw [h1, h2] at hiff
    simpa using hiff.mp rfl
  · rfl

/-- The per-token emoji loop of the skills rule accepts exactly the token
lists with no emoji-class character. -/
theorem skillsEmojiLoop_eq_none_iff (ts : List String) :
    skillsEmojiLoop ts = none ↔ ∀ t ∈ ts, containsEmoji t = false := by
  induction ts with
  | nil => simp [skillsEmojiLoop]
  | cons t rest ih =>
    simp only [skillsEmojiLoop]
    by_cases h : containsEmoji t
    · simp [h]
    · rw [if_neg h]
      rw [ih]
      simp only [Bool.not_eq_true] at h
      simp [h]

/-- The per-token emoji loop fails with the fixed skills emoji message
exactly when some token contains an emoji-class character. -/
theorem skillsEmojiLoop_eq_some_iff (ts : List String) :
    skillsEmojiLoop ts = some "Skills cannot contain emojis, icons, or graphics" ↔
      ∃ t ∈ ts, containsEmoji t = true := by
  induction ts with
  | nil => simp [skillsEmojiLoop]
  | cons t rest ih =>
    simp only [skillsEmojiLoop]
    by_cases h : containsEmoji t
    · simp [h]
    · rw [if_neg h]
      rw [ih]
      simp only [Bool.not_eq_true] at h
      simp [h]

/-- The per-token emoji loop returns either success or the fixed skills
emoji message. -/
theorem skillsEmojiLoop_cases (ts : List String) :
    skillsEmojiLoop ts = none ∨
      skillsEmojiLoop ts = some "Skills cannot contain emojis, icons, or graphics" := by
  induction ts with
  | nil => exact Or.inl rfl
  | cons t rest ih =>
    simp only [skillsEmojiLoop]
    by_cases h : containsEmoji t
    · rw [if_pos h]
      exact Or.inr rfl
    · rw [if_neg h]
      exact ih

/-- C7: the structural check of the skills rule passes exactly when the raw
string contains a literal comma anywhere (a trailing-comma string such as
"a," passes), and after the comma gate every trimmed comma-separated token
is individually emoji-checked. -/
theorem claim_C7_skills_comma (v : String) :
    (validate_comma_separated_format v = some "Skills must be in comma-separated format" ↔
      containsChar v ',' = false) ∧
    (validate_comma_separated_format v = none ↔
      containsChar v ',' = true ∧
      ∀ t ∈ (splitComma v).map pyStrip, containsEmoji t = false) ∧
    (validate_comma_separated_format v = some "Skills cannot contain emojis, icons, or graphics" ↔
      containsChar v ',' = true ∧
      ∃ t ∈ (splitComma v).map pyStrip, containsEmoji t = true) ∧
    validate_comma_separated_format "Python, JavaScript" = none ∧
    validate_comma_separated_format "a," = none ∧
    (∃ m, validate_comma_separated_format "Python JavaScript" = some m ∧
      containsStr "comma" m = true) := by
  have hstrip := containsChar_pyStrip v ',' (by decide)
  have hmain : validate_comma_separated_format v =
      (if containsChar v ',' = true then skillsEmojiLoop ((splitComma v).map pyStrip)
       else some "Skills must be in comma-separated format") := by
    unfold validate_comma_separated_format
    rw [hstrip]
    cases containsChar v ',' <;> simp
  refine ⟨?_, ?_, ?_, by decide, by decide,
    ⟨"Skills must be in comma-separated format", by decide, by decide⟩⟩
  · rw [hmain]
    by_cases h : containsChar v ',' = true
    · rw [if_pos h]
      constructor
      · intro hl
        rcases skillsEmojiLoop_cases ((splitComma v).map pyStrip) with hc | hc <;> rw [hc] at hl
        · exact absurd hl (by simp)
        · exact absurd (Option.some.inj hl) (by decide)
      · intro hfalse
        rw [h] at hfalse
        exact absurd hfalse (by decide)
    · rw [if_neg h]
      simp only [Bool.not_eq_true] at h
      simp [h]
  · rw [hmain]
    by_cases h : containsChar v ',' = true
    · rw [if_pos h, skillsEmojiLoop_eq_none_iff]
      simp [h]
    · rw [if_neg h]
      simp only [Bool.not_eq_true] at h
      simp [h]
  · rw [hmain]
    by_cases h : containsChar v ',' = true
    · rw [if_pos h, skillsEmojiLoop_eq_some_iff]
      simp [h]
    · rw [if_neg h]
      simp only [Bool.not_eq_true] at h
      constructor
      · intro hl
        exact absurd (Option.some.inj hl) (by decide)
      · rintro ⟨hfalse, -⟩
        rw [h] at hfalse
        exact absurd hfalse (by decide)

/-- C6: the emoji rule fires exactly when some code point of the value lies
in one of the six fixed ranges, a value whose code points all lie below the
lowest range bound (all ASCII and Latin text) never triggers it, and on an
otherwise length-valid field a match produces exactly one emoji violation
for that field. -/
theorem claim_C6_emoji_rule (v : String) :
    (containsEmoji v = true ↔ ∃ c ∈ v.data,
      (0x1F600 ≤ c.toNat ∧ c.toNat ≤ 0x1F64F) ∨ (0x1F300 ≤ c.toNat ∧ c.toNat ≤ 0x1F5FF) ∨
      (0x1F680 ≤ c.toNat ∧ c.toNat ≤ 0x1F6FF) ∨ (0x1F1E0 ≤ c.toNat ∧ c.toNat ≤ 0x1F1FF) ∨
      (0x2702 ≤ c.toNat ∧ c.toNat ≤ 0x27B0) ∨ (0x24C2 ≤ c.toNat ∧ c.toNat ≤ 0x1F251)) ∧
    (validate_no_emojis_icons v = none ↔ containsEmoji v = false) ∧
    ((∀ c ∈ v.data, c.toNat < 0x24C2) → validate_no_emojis_icons v = none) ∧
    (1 ≤ v.data.length → v.data.length ≤ 100 → containsEmoji v = true →
      (reqStrField [("name", Raw.str v)] "name" headerNameSpec).1 =
        [⟨"name", valueError "Content cannot contain emojis, icons, or graphics",
          "value_error"⟩]) := by
  refine ⟨?_, ?_, ?_, ?_⟩
  · simp [containsEmoji, isEmojiChar, emojiRanges, List.any_eq_true]
  · unfold validate_no_emojis_icons
    by_cases h : containsEmoji v
    · simp [h]
    · simp [h]
  · intro h
    have hce : containsEmoji v = false := by
      simp only [containsEmoji, List.any_eq_false]
      intro c hcmem
      have hb := h c hcmem
      simp [isEmojiChar, emojiRanges]
      omega
    simp [validate_no_emojis_icons, hce]
  · intro h1 h100 hemoji
    have hlen : v.length = v.data.length := rfl
    have hne0 : ¬ (v.length = 0) := by rw [hlen]; omega
    have hgt : ¬ (100 < v.length) := by rw [hlen]; omega
    simp [reqStrField, getKey, strFieldErr, strFieldErrMax, strFieldErrPat,
      strFieldErrChecks, headerNameSpec, runChecks, validate_no_emojis_icons,
      hemoji, hne0, hgt, valueError]

/-- Closed witness for the emoji rule: a value containing a single emoji
among plain text yields exactly one emoji violation on the name field, and
a plain Latin value passes. -/
theorem claim_C6_witness :
    (reqStrField [("name", Raw.str "Hi 😀")] "name" headerNameSpec).1 =
      [⟨"name", valueError "Content cannot contain emojis, icons, or graphics",
        "value_error"⟩] ∧
    validate_no_emojis_icons "plain Latin text" = none :=
  ⟨(claim_C6_emoji_rule "Hi 😀").2.2.2 (by decide) (by decide) (by decide),
   (claim_C6_emoji_rule "plain Latin text").2.2.1 (by decide)⟩

/-- C3 counterexample: the `start_date` field accepts a value whose year is
written with Arabic-Indic digits, which the claim's ASCII-only grammar
rejects, because the regex digit class covers every Unicode decimal
digit. -/
theorem claim_C3_counterexample :
    (reqStrField [("start_date", Raw.str "JAN ٠١٢٣")] "start_date" startDateSpec).1 = [] ∧
    (reqStrField [("start_date", Raw.str "JAN ٠١٢٣")] "start_date" startDateSpec).2 =
      some "JAN ٠١٢٣" ∧
    specAsciiDateGrammar "JAN ٠١٢٣" = false := by
  refine ⟨by decide, by decide, by decide⟩

/-- C3 (amended): a month-year date field accepts exactly the strings made
of three uppercase ASCII letters, one space, and four Unicode decimal
digits (every ASCII digit qualifies); `end_date` fields additionally accept
exactly the literal `Present` and `start_date` fields never do, with the
spec's example strings behaving as listed. -/
theorem claim_C3_date_grammar (s : String) :
    ((reqStrField [("start_date", Raw.str s)] "start_date" startDateSpec).1 = [] ↔
      matchesDatePattern s = true) ∧
    ((optStrField [("end_date", Raw.str s)] "end_date" endDateSpec).1 = [] ↔
      (matchesDatePattern s = true ∨ s = "Present")) ∧
    (matchesDatePattern s = true ↔ ∃ a b c d1 d2 d3 d4,
      s.data = [a, b, c, ' ', d1, d2, d3, d4] ∧ isUpperAZ a = true ∧ isUpperAZ b = true ∧
      isUpperAZ c = true ∧ reDigit d1 = true ∧ reDigit d2 = true ∧ reDigit d3 = true ∧
      reDigit d4 = true) ∧
    (∀ c : Char, 0x30 ≤ c.toNat → c.toNat ≤ 0x39 → reDigit c = true) ∧
    matchesDatePattern "JAN 2020" = true ∧
    matchesDatePattern "XYZ 2020" = true ∧
    matchesDatePattern "January 2020" = false ∧
    matchesDatePattern "01 2020" = false ∧
    matchesDatePattern "JAN2020" = false ∧
    matchesDatePattern "jan 2020" = false ∧
    matchesDatePattern "Present" = false ∧
    matchesEndDatePattern "Present" = true := by
  refine ⟨?_, ?_, ?_, ?_, by decide, by decide, by decide, by decide, by decide,
    by decide, by decide, by decide⟩
  · by_cases hp : matchesDatePattern s
    · simp [reqStrField, getKey, strFieldErr, strFieldErrMax, strFieldErrPat,
        strFieldErrChecks, startDateSpec, runChecks, hp]
    · simp [reqStrField, getKey, strFieldErr, strFieldErrMax, strFieldErrPat,
        strFieldErrChecks, startDateSpec, runChecks, hp]
  · by_cases hp : matchesEndDatePattern s
    · simp [optStrField, getKey, strFieldErr, strFieldErrMax, strFieldErrPat,
        strFieldErrChecks, endDateSpec, runChecks, hp]
      rcases Bool.or_eq_true _ _ |>.mp hp with h | h
      · exact Or.inl h
      · exact Or.inr (by simpa using h)
    · have hd : matchesDatePattern s = false := by
        by_cases h : matchesDatePattern s = true
        · exact absurd (by simp [matchesEndDatePattern, h]) hp
        · simpa using h
      have hps : s ≠ "Present" := by
        intro h
        exact hp (by simp [matchesEndDatePattern, h])
      simp [optStrField, getKey, strFieldErr, strFieldErrMax, strFieldErrPat,
        strFieldErrChecks, endDateSpec, runChecks, hp, hd, hps]
  · constructor
    · intro h
      unfold matchesDatePattern at h
      split at h
      · rename_i a b c sp d1 d2 d3 d4 heq
        simp only [Bool.and_eq_true, decide_eq_true_eq] at h
        obtain ⟨⟨⟨⟨⟨⟨⟨ha, hb⟩, hc⟩, hsp⟩, h1⟩, h2⟩, h3⟩, h4⟩ := h
        subst hsp
        exact ⟨a, b, c, d1, d2, d3, d4, heq, ha, hb, hc, h1, h2, h3, h4⟩
      · exact absurd h (by simp)
    · rintro ⟨a, b, c, d1, d2, d3, d4, hdata, ha, hb, hc, h1, h2, h3, h4⟩
      unfold matchesDatePattern
      rw [hdata]
      simp [ha, hb, hc, h1, h2, h3, h4]
  · intro c hlo hhi
    simp [reDigit, ndRanges]
    omega

set_option maxRecDepth 100000 in
/-- Closed witness for the word-count rule: a concrete split token is
nonempty and the concrete 90-word summary passes the rule. -/
theorem claim_C4_witness :
    "a" ≠ "" ∧ validate_word_count goodSummary = none :=
  ⟨(claim_C4_word_count "a b").2.2.2.1 "a" (by decide),
   (claim_C4_word_count goodSummary).1.mpr (by decide)⟩

/-- Closed witness for the skills comma rule: the canonical comma-separated
skills string passes both the comma gate and the per-token emoji scan. -/
theorem claim_C7_witness :
    validate_comma_separated_format "Python, JavaScript" = none :=
  (claim_C7_skills_comma "Python, JavaScript").2.1.mpr ⟨by decide, by decide⟩

/-- Closed witness for the date grammar: the canonical date passes the
start-date field and an ASCII digit is in the regex digit class. -/
theorem claim_C3_witness :
    (reqStrField [("start_date", Raw.str "JAN 2020")] "start_date" startDateSpec).1 = [] ∧
    reDigit '5' = true :=
  ⟨(claim_C3_date_grammar "JAN 2020").1.mpr (by decide),
   (claim_C3_date_grammar "JAN 2020").2.2.2.1 '5' (by decide) (by decide)⟩

/-- Coercing a list of raw strings yields exactly the strings and no
errors. -/
theorem strElems_map_str (vs : List String) : ∀ i, strElems (vs.map Raw.str) i = ([], some vs) := by
  induction vs with
  | nil =>
    intro i
    rfl
  | cons v rest ih =>
    intro i
    simp [List.map_cons, strElems, ih (i + 1)]

/-- On an emoji-free list the per-element loop succeeds exactly when no
element is blank after trimming. -/
theorem respLoop_eq_none_iff (vs : List String) (hem : ∀ r ∈ vs, containsEmoji r = false) :
    respLoop vs = none ↔ ∀ r ∈ vs, pyStrip r ≠ "" := by
  induction vs with
  | nil => simp [respLoop]
  | cons v rest ih =>
    have hv := hem v (by simp)
    have hrest : ∀ r ∈ rest, containsEmoji r = false :=
      fun r hr => hem r (List.mem_cons_of_mem _ hr)
    simp only [respLoop]
    rw [if_neg (by simp [hv])]
    by_cases hs : pyStrip v = ""
    · rw [if_pos hs]
      constructor
      · intro h
        exact absurd h (by simp)
      · intro h
        exact absurd hs (h v (by simp))
    · rw [if_neg hs]
      rw [ih hrest]
      constructor
      · intro h r hr
        rcases List.mem_cons.mp hr with h1 | h2
        · subst h1
          exact hs
        · exact h r h2
      · intro h r hr
        exact h r (List.mem_cons_of_mem _ hr)

/-- On an emoji-free list containing a blank element the per-element loop
fails with the empty-element message. -/
theorem respLoop_eq_some_empty (vs : List String) (hem : ∀ r ∈ vs, containsEmoji r = false)
    (hex : ∃ r ∈ vs, pyStrip r = "") :
    respLoop vs = some "Responsibilities cannot be empty" := by
  induction vs with
  | nil => simp at hex
  | cons v rest ih =>
    have hv := hem v (by simp)
    simp only [respLoop]
    rw [if_neg (by simp [hv])]
    by_cases hs : pyStrip v = ""
    · rw [if_pos hs]
    · rw [if_neg hs]
      apply ih (fun r hr => hem r (List.mem_cons_of_mem _ hr))
      rcases hex with ⟨r, hr, hrs⟩
      rcases List.mem_cons.mp hr with h1 | h2
      · subst h1
        exact absurd hrs hs
      · exact ⟨r, h2, hrs⟩

/-- C5 counterexample: a responsibilities list of two elements, one of them
empty, yields exactly one error — the cardinality error — and no
empty-element violation, so the two checks are not independent. -/
theorem claim_C5_counterexample :
    pyStrip "" = "" ∧
    (respField [("responsibilities", Raw.list [Raw.str "", Raw.str "x"])]).1.length = 1 ∧
    ((respField [("responsibilities", Raw.list [Raw.str "", Raw.str "x"])]).1.all
      fun e => !containsStr "Responsibilities cannot be empty" e.message) = true := by
  refine ⟨by decide, by decide, by decide⟩

/-- C5 (amended): the cardinality check and the per-element non-empty check
are sequential, not independent: a list with fewer than 3 elements reports
only the cardinality error (whose message names the minimum 3), and only a
list passing the cardinality gate runs the per-element scan, which on
emoji-free elements fails with the empty-element message exactly when some
element is blank after trimming. -/
theorem claim_C5_responsibilities (vs : List String) :
    (vs.length < 3 →
      (respField [("responsibilities", Raw.list (vs.map Raw.str))]).1 =
        [⟨"responsibilities",
          "List should have at least 3 items after validation, not " ++ toString vs.length,
          "too_short"⟩] ∧
      containsStr "3"
        ("List should have at least 3 items after validation, not " ++ toString vs.length) = true) ∧
    (3 ≤ vs.length → (∀ r ∈ vs, containsEmoji r = false) →
      ((respField [("responsibilities", Raw.list (vs.map Raw.str))]).1 = [] ↔
        ∀ r ∈ vs, pyStrip r ≠ "")) ∧
    (3 ≤ vs.length → (∀ r ∈ vs, containsEmoji r = false) → (∃ r ∈ vs, pyStrip r = "") →
      (respField [("responsibilities", Raw.list (vs.map Raw.str))]).1 =
        [⟨"responsibilities", valueError "Responsibilities cannot be empty", "value_error"⟩]) := by
  have hg : getKey [("responsibilities", Raw.list (vs.map Raw.str))] "responsibilities" =
      some (Raw.list (vs.map Raw.str)) := rfl
  have hse := strElems_map_str vs 0
  refine ⟨?_, ?_, ?_⟩
  · intro h
    constructor
    · simp only [respField, hg, hse]
      rw [if_pos h]
    · simp only [containsStr, String.data_append]
      exact containsCs_append_left _ _ _ (by decide)
  · intro h3 hem
    have hvr : validate_responsibilities vs = respLoop vs := by
      unfold validate_responsibilities
      rw [if_neg (by omega)]
    simp only [respField, hg, hse]
    rw [if_neg (by omega), hvr]
    rcases hloop : respLoop vs with _ | m
    · rw [← respLoop_eq_none_iff vs hem]
      simp [hloop]
    · constructor
      · intro hfls
        exact absurd hfls (by simp)
      · intro hall
        rw [← respLoop_eq_none_iff vs hem] at hall
        rw [hall] at hloop
        exact absurd hloop (by simp)
  · intro h3 hem hex
    have hloop := respLoop_eq_some_empty vs hem hex
    have hvr : validate_responsibilities vs = some "Responsibilities cannot be empty" := by
      unfold validate_responsibilities
      rw [if_neg (by omega)]
      exact hloop
    simp only [respField, hg, hse]
    rw [if_neg (by omega), hvr]

/-- Closed witness for the responsibilities rule: three non-empty entries
pass, three entries with one blank fail with the empty-element message, and
two entries produce exactly the single cardinality error. -/
theorem claim_C5_witness :
    (respField [("responsibilities",
        Raw.list [Raw.str "Did a", Raw.str "Did b", Raw.str "Did c"])]).1 = [] ∧
    (respField [("responsibilities", Raw.list [Raw.str "a", Raw.str "b", Raw.str "   "])]).1 =
      [⟨"responsibilities", valueError "Responsibilities cannot be empty", "value_error"⟩] ∧
    (respField [("responsibilities", Raw.list [Raw.str "a", Raw.str "b"])]).1.length = 1 :=
  ⟨((claim_C5_responsibilities ["Did a", "Did b", "Did c"]).2.1 (by decide) (by decide)).mpr
      (by decide),
   (claim_C5_responsibilities ["a", "b", "   "]).2.2 (by decide) (by decide)
      ⟨"   ", by decide, by decide⟩,
   by
     have h := ((claim_C5_responsibilities ["a", "b"]).1 (by decide)).1
     simp only [List.map_cons, List.map_nil] at h
     rw [h]
     rfl⟩

/-- Lookup ignores a leading entry with a different key. -/
theorem getKey_cons_ne (k : String) (v : Raw) (kvs : List (String × Raw)) (n : String)
    (h : n ≠ k) : getKey ((k, v) :: kvs) n = getKey kvs n := by
  simp only [getKey, List.find?_cons]
  have hkn : (decide ((k, v).1 = n)) = false := by simp [Ne.symm h]
  rw [hkn]

/-- A required string field ignores an undeclared leading entry. -/
theorem reqStrField_cons_ne (k : String) (v : Raw) (kvs : List (String × Raw)) (n : String)
    (spec : StrSpec) (h : n ≠ k) :
    reqStrField ((k, v) :: kvs) n spec = reqStrField kvs n spec := by
  simp only [reqStrField, getKey_cons_ne k v kvs n h]

/-- An optional string field ignores an undeclared leading entry. -/
theorem optStrField_cons_ne (k : String) (v : Raw) (kvs : List (String × Raw)) (n : String)
    (spec : StrSpec) (h : n ≠ k) :
    optStrField ((k, v) :: kvs) n spec = optStrField kvs n spec := by
  simp only [optStrField, getKey_cons_ne k v kvs n h]

/-- The responsibilities field ignores an undeclared leading entry. -/
theorem respField_cons_ne (k : String) (v : Raw) (kvs : List (String × Raw))
    (h : "responsibilities" ≠ k) :
    respField ((k, v) :: kvs) = respField kvs := by
  simp only [respField, getKey_cons_ne k v kvs "responsibilities" h]

/-- `HeaderModel` silently ignores a key it does not declare. -/
theorem validateHeaderFields_ignores (k : String) (v : Raw) (kvs : List (String × Raw))
    (h : k ∉ headerFieldNames) :
    validateHeaderFields ((k, v) :: kvs) = validateHeaderFields kvs := by
  have h1 : "name" ≠ k := fun he => h (he ▸ (by simp [headerFieldNames]))
  have h2 : "title" ≠ k := fun he => h (he ▸ (by simp [headerFieldNames]))
  have h3 : "email" ≠ k := fun he => h (he ▸ (by simp [headerFieldNames]))
  have h4 : "phone" ≠ k := fun he => h (he ▸ (by simp [headerFieldNames]))
  have h5 : "location" ≠ k := fun he => h (he ▸ (by simp [headerFieldNames]))
  simp only [validateHeaderFields, reqStrField_cons_ne k v kvs _ _ h1,
    reqStrField_cons_ne k v kvs _ _ h2, reqStrField_cons_ne k v kvs _ _ h3,
    reqStrField_cons_ne k v kvs _ _ h4, reqStrField_cons_ne k v kvs _ _ h5]

/-- `ExpertiseModel` silently ignores a key it does not declare. -/
theorem validateExpertiseFields_ignores (k : String) (v : Raw) (kvs : List (String × Raw))
    (h : k ≠ "summary") :
    validateExpertiseFields ((k, v) :: kvs) = validateExpertiseFields kvs := by
  simp only [validateExpertiseFields, reqStrField_cons_ne k v kvs _ _ (Ne.symm h)]

/-- `SkillsModel` silently ignores a key it does not declare. -/
theorem validateSkillsFields_ignores (k : String) (v : Raw) (kvs : List (String × Raw))
    (h : k ≠ "skills") :
    validateSkillsFields ((k, v) :: kvs) = validateSkillsFields kvs := by
  simp only [validateSkillsFields, reqStrField_cons_ne k v kvs _ _ (Ne.symm h)]

/-- `ExperienceModel` silently ignores a key it does not declare. -/
theorem validateExperienceFields_ignores (k : String) (v : Raw) (kvs : List (String × Raw))
    (h : k ∉ experienceFieldNames) :
    validateExperienceFields ((k, v) :: kvs) = validateExperienceFields kvs := by
  have h1 : "company" ≠ k := fun he => h (he ▸ (by simp [experienceFieldNames]))
  have h2 : "position" ≠ k := fun he => h (he ▸ (by simp [experienceFieldNames]))
  have h3 : "start_date" ≠ k := fun he => h (he ▸ (by simp [experienceFieldNames]))
  have h4 : "end_date" ≠ k := fun he => h (he ▸ (by simp [experienceFieldNames]))
  have h5 : "responsibilities" ≠ k := fun he => h (he ▸ (by simp [experienceFieldNames]))
  simp only [validateExperienceFields, reqStrField_cons_ne k v kvs _ _ h1,
    reqStrField_cons_ne k v kvs _ _ h2, reqStrField_cons_ne k v kvs _ _ h3,
    optStrField_cons_ne k v kvs _ _ h4, respField_cons_ne k v kvs h5]

/-- `ProjectModel` silently ignores a key it does not declare. -/
theorem validateProjectFields_ignores (k : String) (v : Raw) (kvs : List (String × Raw))
    (h : k ∉ projectFieldNames) :
    validateProjectFields ((k, v) :: kvs) = validateProjectFields kvs := by
  have h1 : "name" ≠ k := fun he => h (he ▸ (by simp [projectFieldNames]))
  have h2 : "description" ≠ k := fun he => h (he ▸ (by simp [projectFieldNames]))
  have h3 : "technologies" ≠ k := fun he => h (he ▸ (by simp [projectFieldNames]))
  have h4 : "start_date" ≠ k := fun he => h (he ▸ (by simp [projectFieldNames]))
  have h5 : "end_date" ≠ k := fun he => h (he ▸ (by simp [projectFieldNames]))
  simp only [validateProjectFields, reqStrField_cons_ne k v kvs _ _ h1,
    reqStrField_cons_ne k v kvs _ _ h2, reqStrField_cons_ne k v kvs _ _ h3,
    reqStrField_cons_ne k v kvs _ _ h4, optStrField_cons_ne k v kvs _ _ h5]

/-- `EducationModel` silently ignores a key it does not declare. -/
theorem validateEducationFields_ignores (k : String) (v : Raw) (kvs : List (String × Raw))
    (h : k ∉ educationFieldNames) :
    validateEducationFields ((k, v) :: kvs) = validateEducationFields kvs := by
  have h1 : "institution" ≠ k := fun he => h (he ▸ (by simp [educationFieldNames]))
  have h2 : "degree" ≠ k := fun he => h (he ▸ (by simp [educationFieldNames]))
  have h3 : "field_of_study" ≠ k := fun he => h (he ▸ (by simp [educationFieldNames]))
  have h4 : "graduation_date" ≠ k := fun he => h (he ▸ (by simp [educationFieldNames]))
  have h5 : "gpa" ≠ k := fun he => h (he ▸ (by simp [educationFieldNames]))
  simp only [validateEducationFields, reqStrField_cons_ne k v kvs _ _ h1,
    reqStrField_cons_ne k v kvs _ _ h2, reqStrField_cons_ne k v kvs _ _ h3,
    reqStrField_cons_ne k v kvs _ _ h4, optStrField_cons_ne k v kvs _ _ h5]

/-- `AwardModel` silently ignores a key it does not declare. -/
theorem validateAwardFields_ignores (k : String) (v : Raw) (kvs : List (String × Raw))
    (h : k ∉ awardFieldNames) :
    validateAwardFields ((k, v) :: kvs) = validateAwardFields kvs := by
  have h1 : "title" ≠ k := fun he => h (he ▸ (by simp [awardFieldNames]))
  have h2 : "organization" ≠ k := fun he => h (he ▸ (by simp [awardFieldNames]))
  have h3 : "date" ≠ k := fun he => h (he ▸ (by simp [awardFieldNames]))
  have h4 : "description" ≠ k := fun he => h (he ▸ (by simp [awardFieldNames]))
  simp only [validateAwardFields, reqStrField_cons_ne k v kvs _ _ h1,
    reqStrField_cons_ne k v kvs _ _ h2, reqStrField_cons_ne k v kvs _ _ h3,
    optStrField_cons_ne k v kvs _ _ h4]

/-- The error list of the resume validator decomposes into the per-section
error lists in field declaration order, followed by the closed-schema
errors. -/
theorem resume_errors_decomp (kvs : List (String × Raw)) :
    (validateResumeObj kvs).1 =
      (modelField kvs "header" validateHeader).1 ++
      (modelField kvs "expertise" validateExpertise).1 ++
      (modelField kvs "skills" validateSkills).1 ++
      (listModelField kvs "experience" validateExperience
        [validate_required_sections_not_empty "experience", validate_experience_order]).1 ++
      (listModelField kvs "projects" validateProject
        [validate_required_sections_not_empty "projects"]).1 ++
      (listModelField kvs "education" validateEducation
        [validate_required_sections_not_empty "education"]).1 ++
      (awardsField kvs).1 ++
      extraKeyErrors kvs := rfl

/-- On a nonempty error list the endpoint reports failure. -/
theorem validate_resume_valid_false (kvs : List (String × Raw))
    (h : (validateResumeObj kvs).1 ≠ []) : (validate_resume kvs).valid = false := by
  unfold validate_resume
  rcases hES : (validateResumeObj kvs).1 with _ | ⟨e, es⟩
  · exact absurd hES h
  · simp [hES]

/-- On an empty error list the endpoint reports success and echoes the
constructed model. -/
theorem validate_resume_of_nil (kvs : List (String × Raw))
    (h : (validateResumeObj kvs).1 = []) :
    validate_resume kvs = ⟨true, [], (validateResumeObj kvs).2⟩ := by
  unfold validate_resume
  simp [h]

set_option maxRecDepth 1000000 in
/-- C2 counterexample: an undeclared key inside the header — a nesting
level covered by the schema — produces no violation at all: the document
validates cleanly, so the closed-schema check does not apply at nested
levels. -/
theorem claim_C2_counterexample :
    (∃ hk, nestedExtraHeader = Raw.obj hk ∧ ("nickname", Raw.str "JS") ∈ hk ∧
      "nickname" ∉ headerFieldNames) ∧
    getKey nestedExtraDoc "header" = some nestedExtraHeader ∧
    (validateResumeObj nestedExtraDoc).1 = [] ∧
    (validate_resume nestedExtraDoc).valid = true := by
  refine ⟨⟨_, rfl, by simp, by decide⟩, rfl, by decide, by decide⟩

/-- C2 (amended): the closed-schema check applies only at the top level of
the document — an undeclared top-level key is reported as one
`extra_forbidden` violation against that key and makes validation fail,
while a key undeclared in any nested model (header, expertise, skills,
experience, project, education, award elements) is silently ignored. -/
theorem claim_C2_closed_schema (k : String) (v : Raw) :
    (∀ kvs : List (String × Raw), (k, v) ∈ kvs → k ∉ resumeFieldNames →
      (⟨k, "Extra inputs are not permitted", "extra_forbidden"⟩ : VError) ∈
        (validateResumeObj kvs).1 ∧
      (validate_resume kvs).valid = false) ∧
    (∀ hk, k ∉ headerFieldNames →
      validateHeaderFields ((k, v) :: hk) = validateHeaderFields hk) ∧
    (∀ hk, k ≠ "summary" →
      validateExpertiseFields ((k, v) :: hk) = validateExpertiseFields hk) ∧
    (∀ hk, k ≠ "skills" →
      validateSkillsFields ((k, v) :: hk) = validateSkillsFields hk) ∧
    (∀ hk, k ∉ experienceFieldNames →
      validateExperienceFields ((k, v) :: hk) = validateExperienceFields hk) ∧
    (∀ hk, k ∉ projectFieldNames →
      validateProjectFields ((k, v) :: hk) = validateProjectFields hk) ∧
    (∀ hk, k ∉ educationFieldNames →
      validateEducationFields ((k, v) :: hk) = validateEducationFields hk) ∧
    (∀ hk, k ∉ awardFieldNames →
      validateAwardFields ((k, v) :: hk) = validateAwardFields hk) := by
  refine ⟨?_, fun hk h => validateHeaderFields_ignores k v hk h,
    fun hk h => validateExpertiseFields_ignores k v hk h,
    fun hk h => validateSkillsFields_ignores k v hk h,
    fun hk h => validateExperienceFields_ignores k v hk h,
    fun hk h => validateProjectFields_ignores k v hk h,
    fun hk h => validateEducationFields_ignores k v hk h,
    fun hk h => validateAwardFields_ignores k v hk h⟩
  intro kvs hmem hnd
  have hm : (⟨k, "Extra inputs are not permitted", "extra_forbidden"⟩ : VError) ∈
      extraKeyErrors kvs := by
    apply List.mem_map.mpr
    refine ⟨(k, v), List.mem_filter.mpr ⟨hmem, ?_⟩, rfl⟩
    simpa using hnd
  have hIn : (⟨k, "Extra inputs are not permitted", "extra_forbidden"⟩ : VError) ∈
      (validateResumeObj kvs).1 := by
    rw [resume_errors_decomp]
    simp only [List.mem_append]
    tauto
  refine ⟨hIn, validate_resume_valid_false kvs (fun hES => by rw [hES] at hIn; simp at hIn)⟩

set_option maxRecDepth 1000000 in
/-- Closed witness for the closed-schema behavior: a top-level undeclared
key on the valid document is reported and fails validation, and the header
ignores an undeclared key. -/
theorem claim_C2_witness :
    ((⟨"x_extra", "Extra inputs are not permitted", "extra_forbidden"⟩ : VError) ∈
      (validateResumeObj (goodResumeKvs ++ [("x_extra", Raw.str "v")])).1 ∧
     (validate_resume (goodResumeKvs ++ [("x_extra", Raw.str "v")])).valid = false) ∧
    validateHeaderFields (("nickname", Raw.str "JS") ::
        [("name", Raw.str "A"), ("title", Raw.str "B")]) =
      validateHeaderFields [("name", Raw.str "A"), ("title", Raw.str "B")] :=
  ⟨(claim_C2_closed_schema "x_extra" (Raw.str "v")).1
      (goodResumeKvs ++ [("x_extra", Raw.str "v")])
      (by simp [goodResumeKvs]) (by decide),
   (claim_C2_closed_schema "nickname" (Raw.str "JS")).2.1
      [("name", Raw.str "A"), ("title", Raw.str "B")] (by decide)⟩

/-- A single string field contributes at most one error, tagged with its
own field name. -/
theorem reqStrField_single (kvs : List (String × Raw)) (n : String) (spec : StrSpec) :
    (reqStrField kvs n spec).1.length ≤ 1 ∧
      ∀ e ∈ (reqStrField kvs n spec).1, e.field = n := by
  unfold reqStrField
  split
  · simp
  · split
    · simp
    · simp
  · simp

set_option maxRecDepth 1000000 in
/-- C1: validation collects all violations — the full error list is the
sum of the per-section error lists computed independently of one another
(so a failure in one field never suppresses a sibling field's check), each
string field contributes at most one error tagged with its own name, and
the concrete document with three independent violations in three distinct
fields yields exactly three errors with three distinct field paths. -/
theorem claim_C1_collect_all (kvs : List (String × Raw)) :
    ((validateResumeObj kvs).1.length =
      (modelField kvs "header" validateHeader).1.length +
      (modelField kvs "expertise" validateExpertise).1.length +
      (modelField kvs "skills" validateSkills).1.length +
      (listModelField kvs "experience" validateExperience
        [validate_required_sections_not_empty "experience", validate_experience_order]).1.length +
      (listModelField kvs "projects" validateProject
        [validate_required_sections_not_empty "projects"]).1.length +
      (listModelField kvs "education" validateEducation
        [validate_required_sections_not_empty "education"]).1.length +
      (awardsField kvs).1.length + (extraKeyErrors kvs).length) ∧
    (∀ hk : List (String × Raw), (validateHeaderFields hk).1 =
      (reqStrField hk "name" headerNameSpec).1 ++ (reqStrField hk "title" headerTitleSpec).1 ++
      (reqStrField hk "email" headerEmailSpec).1 ++ (reqStrField hk "phone" headerPhoneSpec).1 ++
      (reqStrField hk "location" headerLocationSpec).1) ∧
    (∀ (hk : List (String × Raw)) (n : String) (spec : StrSpec),
      (reqStrField hk n spec).1.length ≤ 1 ∧
      ∀ e ∈ (reqStrField hk n spec).1, e.field = n) ∧
    (validateResumeObj threeViolationDoc).1.length = 3 ∧
    ((validateResumeObj threeViolationDoc).1.map VError.field).Nodup ∧
    (validateResumeObj threeViolationDoc).1.map VError.field =
      ["expertise.summary", "skills.skills", "experience.0.responsibilities"] := by
  refine ⟨?_, fun hk => rfl, fun hk n spec => reqStrField_single hk n spec,
    by decide, by decide, by decide⟩
  rw [resume_errors_decomp]
  simp [List.length_append, Nat.add_assoc]

set_option maxRecDepth 1000000 in
/-- Closed witness for the collect-all property: the three-violation
document yields exactly three errors, and a missing required field yields
one error carrying its own field name. -/
theorem claim_C1_witness :
    (validateResumeObj threeViolationDoc).1.length = 3 ∧
    (reqStrField [] "name" headerNameSpec).1.length ≤ 1 ∧
    (⟨"name", "Field required", "missing"⟩ : VError).field = "name" :=
  ⟨(claim_C1_collect_all []).2.2.2.1,
   ((claim_C1_collect_all []).2.2.1 [] "name" headerNameSpec).1,
   ((claim_C1_collect_all []).2.2.1 [] "name" headerNameSpec).2
     ⟨"name", "Field required", "missing"⟩ (by decide)⟩

/-- List-element errors are reported element by element in input order,
each under its own index path. -/
theorem modelElems_errors {α : Type} (f : Raw → List VError × Option α) :
    ∀ (xs : List Raw) (i : Nat),
      (modelElems f xs i).1 =
        ((List.enumFrom i xs).map fun p => addPath (toString p.1) (f p.2).1).flatten := by
  intro xs
  induction xs with
  | nil =>
    intro i
    rfl
  | cons x rest ih =>
    intro i
    simp [modelElems, List.enumFrom, ih (i + 1)]

/-- C8: validation is deterministic — equal inputs produce identical
responses — and the error list comes out in the fixed evaluation order:
the endpoint reports exactly the validator's accumulated list, which is the
declaration-ordered concatenation of the per-section lists, and a list
section's block is the concatenation of its elements' errors in input
order. -/
theorem claim_C8_determinism {α : Type} (kvs kvs2 : List (String × Raw))
    (f : Raw → List VError × Option α) (xs : List Raw) (i : Nat) :
    (kvs = kvs2 → validate_resume kvs = validate_resume kvs2) ∧
    ((validate_resume kvs).valid = true ∧ (validate_resume kvs).errors = [] ∨
      (validate_resume kvs).valid = false ∧
        (validate_resume kvs).errors = (validateResumeObj kvs).1) ∧
    (validateResumeObj kvs).1 =
      (modelField kvs "header" validateHeader).1 ++
      (modelField kvs "expertise" validateExpertise).1 ++
      (modelField kvs "skills" validateSkills).1 ++
      (listModelField kvs "experience" validateExperience
        [validate_required_sections_not_empty "experience", validate_experience_order]).1 ++
      (listModelField kvs "projects" validateProject
        [validate_required_sections_not_empty "projects"]).1 ++
      (listModelField kvs "education" validateEducation
        [validate_required_sections_not_empty "education"]).1 ++
      (awardsField kvs).1 ++
      extraKeyErrors kvs ∧
    (modelElems f xs i).1 =
      ((List.enumFrom i xs).map fun p => addPath (toString p.1) (f p.2).1).flatten := by
  refine ⟨fun h => by rw [h], ?_, resume_errors_decomp kvs, modelElems_errors f xs i⟩
  unfold validate_resume
  rcases hES : (validateResumeObj kvs).1 with _ | ⟨e, es⟩
  · exact Or.inl (by simp [hES])
  · exact Or.inr (by simp [hES])

/-- Closed witness for determinism: two runs on the valid document agree,
and on the three-violation document the endpoint reports exactly the
validator's list. -/
theorem claim_C8_witness :
    validate_resume goodResumeKvs = validate_resume goodResumeKvs :=
  (claim_C8_determinism goodResumeKvs goodResumeKvs validateExperience [] 0).1 rfl

/-- A successfully validated string field passed its constraint pipeline. -/
theorem reqStrField_some (kvs : List (String × Raw)) (n : String) (spec : StrSpec)
    (v : String) (h : (reqStrField kvs n spec).2 = some v) :
    strFieldErr spec v = none ∧ getKey kvs n = some (Raw.str v) := by
  unfold reqStrField at h
  split at h
  · simp at h
  · rename_i v2 heq
    split at h
    · simp at h
    · rename_i hse
      simp only [Prod.snd] at h
      cases h
      exact ⟨hse, heq⟩
  · simp at h

/-- A field with `min_length=1` never validates to the empty string. -/
theorem strFieldErr_min1_ne_empty (spec : StrSpec) (v : String)
    (hmin : spec.minLen = some 1) (h : strFieldErr spec v = none) : v ≠ "" := by
  intro hv
  subst hv
  unfold strFieldErr at h
  rw [hmin] at h
  simp at h

/-- Combined form: success of a `min_length=1` field gives a nonempty
value. -/
theorem reqStrField_min1 (kvs : List (String × Raw)) (n : String) (spec : StrSpec)
    (v : String) (hmin : spec.minLen = some 1)
    (h : (reqStrField kvs n spec).2 = some v) : v ≠ "" :=
  strFieldErr_min1_ne_empty spec v hmin (reqStrField_some kvs n spec v h).1

/-- Inversion of a successful header validation into its five fields. -/
theorem validateHeaderFields_some (kvs : List (String × Raw)) (m : HeaderModel)
    (h : (validateHeaderFields kvs).2 = some m) :
    (reqStrField kvs "name" headerNameSpec).2 = some m.name ∧
    (reqStrField kvs "title" headerTitleSpec).2 = some m.title ∧
    (reqStrField kvs "email" headerEmailSpec).2 = some m.email ∧
    (reqStrField kvs "phone" headerPhoneSpec).2 = some m.phone ∧
    (reqStrField kvs "location" headerLocationSpec).2 = some m.location := by
  simp only [validateHeaderFields] at h
  split at h
  · rename_i a b c d e ha hb hc hd he2
    cases h
    exact ⟨ha, hb, hc, hd, he2⟩
  · simp at h

/-- Inversion of a successful expertise validation. -/
theorem validateExpertiseFields_some (kvs : List (String × Raw)) (m : ExpertiseModel)
    (h : (validateExpertiseFields kvs).2 = some m) :
    (reqStrField kvs "summary" summarySpec).2 = some m.summary := by
  simp only [validateExpertiseFields, Option.map_eq_some'] at h
  obtain ⟨s, hs, rfl⟩ := h
  exact hs

/-- Inversion of a successful skills validation. -/
theorem validateSkillsFields_some (kvs : List (String × Raw)) (m : SkillsModel)
    (h : (validateSkillsFields kvs).2 = some m) :
    (reqStrField kvs "skills" skillsSpec).2 = some m.skills := by
  simp only [validateSkillsFields, Option.map_eq_some'] at h
  obtain ⟨s, hs, rfl⟩ := h
  exact hs

/-- Inversion of a successful experience validation into its fields. -/
theorem validateExperienceFields_some (kvs : List (String × Raw)) (m : ExperienceModel)
    (h : (validateExperienceFields kvs).2 = some m) :
    (reqStrField kvs "company" companySpec).2 = some m.company ∧
    (reqStrField kvs "position" companySpec).2 = some m.position ∧
    (reqStrField kvs "start_date" startDateSpec).2 = some m.start_date ∧
    (optStrField kvs "end_date" endDateSpec).2 = some m.end_date ∧
    (respField kvs).2 = some m.responsibilities := by
  simp only [validateExperienceFields] at h
  split at h
  · rename_i a b c d e ha hb hc hd he2
    cases h
    exact ⟨ha, hb, hc, hd, he2⟩
  · simp at h

/-- Inversion of a successful project validation into its fields. -/
theorem validateProjectFields_some (kvs : List (String × Raw)) (m : ProjectModel)
    (h : (validateProjectFields kvs).2 = some m) :
    (reqStrField kvs "name" projectNameSpec).2 = some m.name ∧
    (reqStrField kvs "description" projectDescriptionSpec).2 = some m.description ∧
    (reqStrField kvs "technologies" technologiesSpec).2 = some m.technologies ∧
    (reqStrField kvs "start_date" startDateSpec).2 = some m.start_date ∧
    (optStrField kvs "end_date" endDateSpec).2 = some m.end_date := by
  simp only [validateProjectFields] at h
  split at h
  · rename_i a b c d e ha hb hc hd he2
    cases h
    exact ⟨ha, hb, hc, hd, he2⟩
  · simp at h

/-- Inversion of a successful education validation into its fields. -/
theorem validateEducationFields_some (kvs : List (String × Raw)) (m : EducationModel)
    (h : (validateEducationFields kvs).2 = some m) :
    (reqStrField kvs "institution" educationTextSpec).2 = some m.institution ∧
    (reqStrField kvs "degree" educationTextSpec).2 = some m.degree ∧
    (reqStrField kvs "field_of_study" educationTextSpec).2 = some m.field_of_study ∧
    (reqStrField kvs "graduation_date" startDateSpec).2 = some m.graduation_date ∧
    (optStrField kvs "gpa" gpaSpec).2 = some m.gpa := by
  simp only [validateEducationFields] at h
  split at h
  · rename_i a b c d e ha hb hc hd he2
    cases h
    exact ⟨ha, hb, hc, hd, he2⟩
  · simp at h

/-- Inversion of a successful award validation into its fields. -/
theorem validateAwardFields_some (kvs : List (String × Raw)) (m : AwardModel)
    (h : (validateAwardFields kvs).2 = some m) :
    (reqStrField kvs "title" awardTextSpec).2 = some m.title ∧
    (reqStrField kvs "organization" awardTextSpec).2 = some m.organization ∧
    (reqStrField kvs "date" startDateSpec).2 = some m.date ∧
    (optStrField kvs "description" awardDescriptionSpec).2 = some m.description := by
  simp only [validateAwardFields] at h
  split at h
  · rename_i a b c d ha hb hc hd
    cases h
    exact ⟨ha, hb, hc, hd⟩
  · simp at h

/-- A raw value validating as a header is an object. -/
theorem validateHeader_some (r : Raw) (m : HeaderModel)
    (h : (validateHeader r).2 = some m) :
    ∃ hk, r = Raw.obj hk ∧ (validateHeaderFields hk).2 = some m := by
  cases r with
  | obj kvs => exact ⟨kvs, rfl, h⟩
  | str s => simp [validateHeader] at h
  | list xs => simp [validateHeader] at h
  | null => simp [validateHeader] at h

/-- A raw value validating as an expertise section is an object. -/
theorem validateExpertise_some (r : Raw) (m : ExpertiseModel)
    (h : (validateExpertise r).2 = some m) :
    ∃ hk, r = Raw.obj hk ∧ (validateExpertiseFields hk).2 = some m := by
  cases r with
  | obj kvs => exact ⟨kvs, rfl, h⟩
  | str s => simp [validateExpertise] at h
  | list xs => simp [validateExpertise] at h
  | null => simp [validateExpertise] at h

/-- A raw value validating as a skills section is an object. -/
theorem validateSkills_some (r : Raw) (m : SkillsModel)
    (h : (validateSkills r).2 = some m) :
    ∃ hk, r = Raw.obj hk ∧ (validateSkillsFields hk).2 = some m := by
  cases r with
  | obj kvs => exact ⟨kvs, rfl, h⟩
  | str s => simp [validateSkills] at h
  | list xs => simp [validateSkills] at h
  | null => simp [validateSkills] at h

/-- A raw value validating as an experience entry is an object. -/
theorem validateExperience_some (r : Raw) (m : ExperienceModel)
    (h : (validateExperience r).2 = some m) :
    ∃ hk, r = Raw.obj hk ∧ (validateExperienceFields hk).2 = some m := by
  cases r with
  | obj kvs => exact ⟨kvs, rfl, h⟩
  | str s => simp [validateExperience] at h
  | list xs => simp [validateExperience] at h
  | null => simp [validateExperience] at h

/-- A raw value validating as a project entry is an object. -/
theorem validateProject_some (r : Raw) (m : ProjectModel)
    (h : (validateProject r).2 = some m) :
    ∃ hk, r = Raw.obj hk ∧ (validateProjectFields hk).2 = some m := by
  cases r with
  | obj kvs => exact ⟨kvs, rfl, h⟩
  | str s => simp [validateProject] at h
  | list xs => simp [validateProject] at h
  | null => simp [validateProject] at h

/-- A raw value validating as an education entry is an object. -/
theorem validateEducation_some (r : Raw) (m : EducationModel)
    (h : (validateEducation r).2 = some m) :
    ∃ hk, r = Raw.obj hk ∧ (validateEducationFields hk).2 = some m := by
  cases r with
  | obj kvs => exact ⟨kvs, rfl, h⟩
  | str s => simp [validateEducation] at h
  | list xs => simp [validateEducation] at h
  | null => simp [validateEducation] at h

/-- A raw value validating as an award entry is an object. -/
theorem validateAward_some (r : Raw) (m : AwardModel)
    (h : (validateAward r).2 = some m) :
    ∃ hk, r = Raw.obj hk ∧ (validateAwardFields hk).2 = some m := by
  cases r with
  | obj kvs => exact ⟨kvs, rfl, h⟩
  | str s => simp [validateAward] at h
  | list xs => simp [validateAward] at h
  | null => simp [validateAward] at h

/-- A successful model field read its key and validated it. -/
theorem modelField_some {α : Type} (kvs : List (String × Raw)) (n : String)
    (f : Raw → List VError × Option α) (m : α)
    (h : (modelField kvs n f).2 = some m) :
    ∃ r, getKey kvs n = some r ∧ (f r).2 = some m := by
  unfold modelField at h
  split at h
  · simp at h
  · rename_i r heq
    simp only [Prod.snd] at h
    exact ⟨r, heq, h⟩

/-- Every element of a successfully validated model list came from a raw
element that validated to it. -/
theorem modelElems_some_mem {α : Type} (f : Raw → List VError × Option α) :
    ∀ (xs : List Raw) (i : Nat) (vs : List α),
      (modelElems f xs i).2 = some vs → ∀ v ∈ vs, ∃ r ∈ xs, (f r).2 = some v := by
  intro xs
  induction xs with
  | nil =>
    intro i vs h v hv
    simp only [modelElems] at h
    cases h
    simp at hv
  | cons x rest ih =>
    intro i vs h v hv
    simp only [modelElems] at h
    split at h
    · rename_i v0 vs0 hx htail
      cases h
      rcases List.mem_cons.mp hv with h1 | h2
      · subst h1
        exact ⟨x, by simp, hx⟩
      · obtain ⟨r, hr, hfr⟩ := ih (i + 1) vs0 htail v h2
        exact ⟨r, List.mem_cons_of_mem _ hr, hfr⟩
    · simp at h

/-- A successful `List[Model]` field read a raw list whose elements all
validated. -/
theorem listModelField_some {α : Type} (kvs : List (String × Raw)) (n : String)
    (f : Raw → List VError × Option α) (checks : List (List α → Option String))
    (vs : List α) (h : (listModelField kvs n f checks).2 = some vs) :
    ∃ xs, getKey kvs n = some (Raw.list xs) ∧ (modelElems f xs 0).2 = some vs := by
  unfold listModelField at h
  split at h
  · simp at h
  · rename_i xs heq
    simp only [] at h
    split at h
    · rename_i vs2 hvs2
      split at h
      · simp at h
      · simp only [Prod.snd] at h
        cases h
        exact ⟨xs, heq, hvs2⟩
    · simp at h
  · simp at h

/-- A successful `awards` field is either defaulted, explicitly null, or a
validated list. -/
theorem awardsField_some (kvs : List (String × Raw)) (oaw : Option (List AwardModel))
    (h : (awardsField kvs).2 = some oaw) :
    oaw = some [] ∨ oaw = none ∨
      ∃ xs l, getKey kvs "awards" = some (Raw.list xs) ∧
        (modelElems validateAward xs 0).2 = some l ∧ oaw = some l := by
  unfold awardsField at h
  split at h
  · cases h
    exact Or.inl rfl
  · cases h
    exact Or.inr (Or.inl rfl)
  · rename_i xs heq
    simp only [] at h
    split at h
    · rename_i l hl
      cases h
      exact Or.inr (Or.inr ⟨xs, l, heq, hl, rfl⟩)
    · simp at h
  · simp at h

/-- Inversion of a successful resume validation into its seven sections. -/
theorem validateResumeObj_some (kvs : List (String × Raw)) (m : ResumeModel)
    (h : (validateResumeObj kvs).2 = some m) :
    (modelField kvs "header" validateHeader).2 = some m.header ∧
    (modelField kvs "expertise" validateExpertise).2 = some m.expertise ∧
    (modelField kvs "skills" validateSkills).2 = some m.skills ∧
    (listModelField kvs "experience" validateExperience
      [validate_required_sections_not_empty "experience", validate_experience_order]).2 =
      some m.experience ∧
    (listModelField kvs "projects" validateProject
      [validate_required_sections_not_empty "projects"]).2 = some m.projects ∧
    (listModelField kvs "education" validateEducation
      [validate_required_sections_not_empty "education"]).2 = some m.education ∧
    (awardsField kvs).2 = some m.awards := by
  simp only [validateResumeObj] at h
  split at h
  · rename_i a b c d e f g ha hb hc hd he2 hf hg
    cases h
    exact ⟨ha, hb, hc, hd, he2, hf, hg⟩
  · simp at h

/-- C10: every required free-text field carries `min_length=1`, so every
successfully constructed resume has a nonempty name, title, location,
summary, skills string, company, position, project name, description and
technologies, institution, degree, field of study, award title and award
organization. -/
theorem claim_C10_nonempty (kvs : List (String × Raw)) (m : ResumeModel)
    (h : (validateResumeObj kvs).2 = some m) :
    m.header.name ≠ "" ∧ m.header.title ≠ "" ∧ m.header.location ≠ "" ∧
    m.expertise.summary ≠ "" ∧ m.skills.skills ≠ "" ∧
    (∀ e ∈ m.experience, e.company ≠ "" ∧ e.position ≠ "") ∧
    (∀ p ∈ m.projects, p.name ≠ "" ∧ p.description ≠ "" ∧ p.technologies ≠ "") ∧
    (∀ ed ∈ m.education,
      ed.institution ≠ "" ∧ ed.degree ≠ "" ∧ ed.field_of_study ≠ "") ∧
    (∀ l, m.awards = some l → ∀ a ∈ l, a.title ≠ "" ∧ a.organization ≠ "") := by
  obtain ⟨hh, hx, hs, he, hp, hed, haw⟩ := validateResumeObj_some kvs m h
  obtain ⟨rh, -, hh2⟩ := modelField_some _ _ _ _ hh
  obtain ⟨hk, -, hh3⟩ := validateHeader_some _ _ hh2
  obtain ⟨hn, ht, -, -, hl⟩ := validateHeaderFields_some _ _ hh3
  obtain ⟨rx, -, hx2⟩ := modelField_some _ _ _ _ hx
  obtain ⟨xk, -, hx3⟩ := validateExpertise_some _ _ hx2
  have hsum := validateExpertiseFields_some _ _ hx3
  obtain ⟨rs, -, hs2⟩ := modelField_some _ _ _ _ hs
  obtain ⟨sk, -, hs3⟩ := validateSkills_some _ _ hs2
  have hskl := validateSkillsFields_some _ _ hs3
  refine ⟨reqStrField_min1 _ _ _ _ rfl hn, reqStrField_min1 _ _ _ _ rfl ht,
    reqStrField_min1 _ _ _ _ rfl hl, reqStrField_min1 _ _ _ _ rfl hsum,
    reqStrField_min1 _ _ _ _ rfl hskl, ?_, ?_, ?_, ?_⟩
  · intro e he2
    obtain ⟨xs, -, hme⟩ := listModelField_some _ _ _ _ _ he
    obtain ⟨r, -, hr⟩ := modelElems_some_mem _ xs 0 _ hme e he2
    obtain ⟨ek, -, hef⟩ := validateExperience_some _ _ hr
    obtain ⟨hc, hp2, -, -, -⟩ := validateExperienceFields_some _ _ hef
    exact ⟨reqStrField_min1 _ _ _ _ rfl hc, reqStrField_min1 _ _ _ _ rfl hp2⟩
  · intro p hp3
    obtain ⟨xs, -, hme⟩ := listModelField_some _ _ _ _ _ hp
    obtain ⟨r, -, hr⟩ := modelElems_some_mem _ xs 0 _ hme p hp3
    obtain ⟨pk, -, hpf⟩ := validateProject_some _ _ hr
    obtain ⟨h1, h2, h3, -, -⟩ := validateProjectFields_some _ _ hpf
    exact ⟨reqStrField_min1 _ _ _ _ rfl h1, reqStrField_min1 _ _ _ _ rfl h2,
      reqStrField_min1 _ _ _ _ rfl h3⟩
  · intro ed2 hed2
    obtain ⟨xs, -, hme⟩ := listModelField_some _ _ _ _ _ hed
    obtain ⟨r, -, hr⟩ := modelElems_some_mem _ xs 0 _ hme ed2 hed2
    obtain ⟨edk, -, hedf⟩ := validateEducation_some _ _ hr
    obtain ⟨h1, h2, h3, -, -⟩ := validateEducationFields_some _ _ hedf
    exact ⟨reqStrField_min1 _ _ _ _ rfl h1, reqStrField_min1 _ _ _ _ rfl h2,
      reqStrField_min1 _ _ _ _ rfl h3⟩
  · intro l hl2 a hal
    rcases awardsField_some _ _ haw with h1 | h1 | ⟨xs, l2, -, hme, hoaw⟩
    · rw [hl2] at h1
      cases Option.some.inj h1
      simp at hal
    · rw [hl2] at h1
      simp at h1
    · rw [hl2] at hoaw
      cases Option.some.inj hoaw
      obtain ⟨r, -, hr⟩ := modelElems_some_mem _ xs 0 _ hme a hal
      obtain ⟨ak, -, haf⟩ := validateAward_some _ _ hr
      obtain ⟨h1, h2, -, -⟩ := validateAwardFields_some _ _ haf
      exact ⟨reqStrField_min1 _ _ _ _ rfl h1, reqStrField_min1 _ _ _ _ rfl h2⟩

set_option maxRecDepth 1000000 in
/-- Closed witness for the non-emptiness invariant, instantiated on the
concrete valid document and its validated aggregate. -/
theorem claim_C10_witness :
    goodResumeModel.header.name ≠ "" ∧ goodResumeModel.skills.skills ≠ "" :=
  ⟨(claim_C10_nonempty goodResumeKvs goodResumeModel (by decide)).1,
   (claim_C10_nonempty goodResumeKvs goodResumeModel (by decide)).2.2.2.2.1⟩

/-- A validated required string field echoes the raw value unchanged. -/
theorem reqStrField_some_echo (kvs : List (String × Raw)) (n : String) (spec : StrSpec)
    (v : String) (h : (reqStrField kvs n spec).2 = some v) :
    echoStr (getKey kvs n) = some v := by
  rw [(reqStrField_some kvs n spec v h).2]
  rfl

/-- A validated optional string field echoes the raw value unchanged. -/
theorem optStrField_some_echo (kvs : List (String × Raw)) (n : String) (spec : StrSpec)
    (ov : Option String) (h : (optStrField kvs n spec).2 = some ov) :
    echoOptStr (getKey kvs n) = some ov := by
  unfold optStrField at h
  split at h
  · rename_i heq
    rw [heq]
    cases h
    rfl
  · rename_i heq
    rw [heq]
    cases h
    rfl
  · rename_i v heq
    split at h
    · simp at h
    · rw [heq]
      simp only [Prod.snd] at h
      cases h
      rfl
  · simp at h

/-- String-list coercion agrees with the echo reader on values. -/
theorem strElems_snd : ∀ (xs : List Raw) (i : Nat),
    (strElems xs i).2 = echoStrElems xs := by
  intro xs
  induction xs with
  | nil =>
    intro i
    rfl
  | cons x rest ih =>
    intro i
    cases x with
    | str s => simp [strElems, echoStrElems, ih (i + 1)]
    | list l => simp [strElems, echoStrElems, ih (i + 1)]
    | obj o => simp [strElems, echoStrElems, ih (i + 1)]
    | null => simp [strElems, echoStrElems, ih (i + 1)]

/-- A validated responsibilities field echoes the raw list unchanged. -/
theorem respField_some_echo (kvs : List (String × Raw)) (vs : List String)
    (h : (respField kvs).2 = some vs) :
    echoStrList (getKey kvs "responsibilities") = some vs := by
  unfold respField at h
  split at h
  · simp at h
  · rename_i xs heq
    rw [heq]
    simp only [] at h
    split at h
    · rename_i vs2 hvs2
      split at h
      · simp at h
      · split at h
        · simp at h
        · simp only [Prod.snd] at h
          cases h
          rw [← hvs2, echoStrList, ← strElems_snd xs 0]
    · simp at h
  · simp at h

/-- A validated header echoes every raw field value unchanged. -/
theorem validateHeader_some_echo (r : Raw) (m : HeaderModel)
    (h : (validateHeader r).2 = some m) : echoHeader r = some m := by
  obtain ⟨hk, rfl, h2⟩ := validateHeader_some r m h
  obtain ⟨h1, h2, h3, h4, h5⟩ := validateHeaderFields_some hk m h2
  simp [echoHeader, reqStrField_some_echo _ _ _ _ h1, reqStrField_some_echo _ _ _ _ h2,
    reqStrField_some_echo _ _ _ _ h3, reqStrField_some_echo _ _ _ _ h4,
    reqStrField_some_echo _ _ _ _ h5]

/-- A validated expertise section echoes the raw summary unchanged. -/
theorem validateExpertise_some_echo (r : Raw) (m : ExpertiseModel)
    (h : (validateExpertise r).2 = some m) : echoExpertise r = some m := by
  obtain ⟨hk, rfl, h2⟩ := validateExpertise_some r m h
  have h1 := validateExpertiseFields_some hk m h2
  simp [echoExpertise, reqStrField_some_echo _ _ _ _ h1]

/-- A validated skills section echoes the raw skills string unchanged. -/
theorem validateSkills_some_echo (r : Raw) (m : SkillsModel)
    (h : (validateSkills r).2 = some m) : echoSkills r = some m := by
  obtain ⟨hk, rfl, h2⟩ := validateSkills_some r m h
  have h1 := validateSkillsFields_some hk m h2
  simp [echoSkills, reqStrField_some_echo _ _ _ _ h1]

/-- A validated experience entry echoes every raw field value unchanged. -/
theorem validateExperience_some_echo (r : Raw) (m : ExperienceModel)
    (h : (validateExperience r).2 = some m) : echoExperience r = some m := by
  obtain ⟨hk, rfl, h2⟩ := validateExperience_some r m h
  obtain ⟨h1, h2, h3, h4, h5⟩ := validateExperienceFields_some hk m h2
  simp [echoExperience, reqStrField_some_echo _ _ _ _ h1, reqStrField_some_echo _ _ _ _ h2,
    reqStrField_some_echo _ _ _ _ h3, optStrField_some_echo _ _ _ _ h4,
    respField_some_echo _ _ h5]

/-- A validated project entry echoes every raw field value unchanged. -/
theorem validateProject_some_echo (r : Raw) (m : ProjectModel)
    (h : (validateProject r).2 = some m) : echoProject r = some m := by
  obtain ⟨hk, rfl, h2⟩ := validateProject_some r m h
  obtain ⟨h1, h2, h3, h4, h5⟩ := validateProjectFields_some hk m h2
  simp [echoProject, reqStrField_some_echo _ _ _ _ h1, reqStrField_some_echo _ _ _ _ h2,
    reqStrField_some_echo _ _ _ _ h3, reqStrField_some_echo _ _ _ _ h4,
    optStrField_some_echo _ _ _ _ h5]

/-- A validated education entry echoes every raw field value unchanged. -/
theorem validateEducation_some_echo (r : Raw) (m : EducationModel)
    (h : (validateEducation r).2 = some m) : echoEducation r = some m := by
  obtain ⟨hk, rfl, h2⟩ := validateEducation_some r m h
  obtain ⟨h1, h2, h3, h4, h5⟩ := validateEducationFields_some hk m h2
  simp [echoEducation, reqStrField_some_echo _ _ _ _ h1, reqStrField_some_echo _ _ _ _ h2,
    reqStrField_some_echo _ _ _ _ h3, reqStrField_some_echo _ _ _ _ h4,
    optStrField_some_echo _ _ _ _ h5]

/-- A validated award entry echoes every raw field value unchanged. -/
theorem validateAward_some_echo (r : Raw) (m : AwardModel)
    (h : (validateAward r).2 = some m) : echoAward r = some m := by
  obtain ⟨hk, rfl, h2⟩ := validateAward_some r m h
  obtain ⟨h1, h2, h3, h4⟩ := validateAwardFields_some hk m h2
  simp [echoAward, reqStrField_some_echo _ _ _ _ h1, reqStrField_some_echo _ _ _ _ h2,
    reqStrField_some_echo _ _ _ _ h3, optStrField_some_echo _ _ _ _ h4]

/-- A validated model list echoes element values in order. -/
theorem modelElems_some_echo {α : Type} (f : Raw → List VError × Option α)
    (ef : Raw → Option α) (hf : ∀ r v, (f r).2 = some v → ef r = some v) :
    ∀ (xs : List Raw) (i : Nat) (vs : List α),
      (modelElems f xs i).2 = some vs → echoList ef xs = some vs := by
  intro xs
  induction xs with
  | nil =>
    intro i vs h
    simp only [modelElems] at h
    cases h
    rfl
  | cons x rest ih =>
    intro i vs h
    simp only [modelElems] at h
    split at h
    · rename_i v0 vs0 hx htail
      cases h
      simp [echoList, hf x v0 hx, ih (i + 1) vs0 htail]
    · simp at h

/-- A validated model-list field echoes the raw list unchanged. -/
theorem listModelField_some_echo {α : Type} (kvs : List (String × Raw)) (n : String)
    (f : Raw → List VError × Option α) (checks : List (List α → Option String))
    (ef : Raw → Option α) (hf : ∀ r v, (f r).2 = some v → ef r = some v)
    (vs : List α) (h : (listModelField kvs n f checks).2 = some vs) :
    echoModelList ef (getKey kvs n) = some vs := by
  obtain ⟨xs, heq, hme⟩ := listModelField_some kvs n f checks vs h
  rw [heq]
  exact modelElems_some_echo f ef hf xs 0 vs hme

/-- A validated awards field echoes the raw value, including default and
explicit null. -/
theorem awardsField_some_echo (kvs : List (String × Raw)) (oaw : Option (List AwardModel))
    (h : (awardsField kvs).2 = some oaw) : echoAwards kvs = some oaw := by
  unfold awardsField at h
  unfold echoAwards
  split at h
  · exact h
  · exact h
  · rename_i xs heq
    simp only [] at h
    split at h
    · rename_i l hl
      cases h
      simp [modelElems_some_echo validateAward echoAward validateAward_some_echo xs 0 l hl]
    · simp at h
  · simp at h

/-- A validated resume echoes every supplied field value unchanged: the
constructed aggregate equals the pure echo read of the raw document. -/
theorem validateResumeObj_some_echo (kvs : List (String × Raw)) (m : ResumeModel)
    (h : (validateResumeObj kvs).2 = some m) : echoResumeObj kvs = some m := by
  obtain ⟨hh, hx, hs, he, hp, hed, haw⟩ := validateResumeObj_some kvs m h
  obtain ⟨rh, hgh, hh2⟩ := modelField_some _ _ _ _ hh
  obtain ⟨rx, hgx, hx2⟩ := modelField_some _ _ _ _ hx
  obtain ⟨rs, hgs, hs2⟩ := modelField_some _ _ _ _ hs
  unfold echoResumeObj
  rw [hgh, hgx, hgs]
  simp [validateHeader_some_echo _ _ hh2, validateExpertise_some_echo _ _ hx2,
    validateSkills_some_echo _ _ hs2,
    listModelField_some_echo _ _ _ _ echoExperience validateExperience_some_echo _ he,
    listModelField_some_echo _ _ _ _ echoProject validateProject_some_echo _ hp,
    listModelField_some_echo _ _ _ _ echoEducation validateEducation_some_echo _ hed,
    awardsField_some_echo _ _ haw]

/-- An error-free required string field produced a value. -/
theorem reqStrField_nil_some (kvs : List (String × Raw)) (n : String) (spec : StrSpec)
    (h : (reqStrField kvs n spec).1 = []) : ∃ v, (reqStrField kvs n spec).2 = some v := by
  unfold reqStrField at h ⊢
  split at h
  · simp at h
  · rename_i v heq
    split at h
    · simp at h
    · exact ⟨v, rfl⟩
  · simp at h

/-- An error-free optional string field produced a value. -/
theorem optStrField_nil_some (kvs : List (String × Raw)) (n : String) (spec : StrSpec)
    (h : (optStrField kvs n spec).1 = []) : ∃ ov, (optStrField kvs n spec).2 = some ov := by
  unfold optStrField at h ⊢
  split at h
  · exact ⟨none, rfl⟩
  · exact ⟨none, rfl⟩
  · rename_i v heq
    split at h
    · simp at h
    · exact ⟨some v, rfl⟩
  · simp at h

/-- A failed string-list coercion left at least one error. -/
theorem strElems_none_ne : ∀ (xs : List Raw) (i : Nat),
    (strElems xs i).2 = none → (strElems xs i).1 ≠ [] := by
  intro xs
  induction xs with
  | nil =>
    intro i h
    simp [strElems] at h
  | cons x rest ih =>
    intro i h
    cases x with
    | str s =>
      simp only [strElems, Option.map_eq_none'] at h ⊢
      exact ih (i + 1) h
    | list l => simp [strElems]
    | obj o => simp [strElems]
    | null => simp [strElems]

/-- An error-free responsibilities field produced a value. -/
theorem respField_nil_some (kvs : List (String × Raw))
    (h : (respField kvs).1 = []) : ∃ vs, (respField kvs).2 = some vs := by
  unfold respField at h ⊢
  split at h
  · simp at h
  · rename_i xs heq
    simp only [] at h ⊢
    split at h
    · rename_i vs hvs
      by_cases hlen : vs.length < 3
      · rw [if_pos hlen] at h
        simp at h
      · rw [if_neg hlen] at h
        rcases hvr : validate_responsibilities vs with _ | m
        · exact ⟨vs, by rw [if_neg hlen]⟩
        · rw [hvr] at h
          simp at h
    · rename_i hnone
      exfalso
      apply strElems_none_ne xs 0 hnone
      simpa [addPath] using h
  · simp at h

/-- An error-free model field produced a value. -/
theorem modelField_nil_some {α : Type} (kvs : List (String × Raw)) (n : String)
    (f : Raw → List VError × Option α)
    (hf : ∀ r, (f r).1 = [] → ∃ v, (f r).2 = some v)
    (h : (modelField kvs n f).1 = []) : ∃ v, (modelField kvs n f).2 = some v := by
  unfold modelField at h ⊢
  split at h
  · simp at h
  · rename_i r heq
    simp only [] at h ⊢
    obtain ⟨v, hv⟩ := hf r (by simpa [addPath] using h)
    exact ⟨v, hv⟩

/-- An error-free header validation produced a model. -/
theorem validateHeaderFields_nil_some (kvs : List (String × Raw))
    (h : (validateHeaderFields kvs).1 = []) :
    ∃ m, (validateHeaderFields kvs).2 = some m := by
  simp only [validateHeaderFields, List.append_eq_nil] at h
  obtain ⟨⟨⟨⟨h1, h2⟩, h3⟩, h4⟩, h5⟩ := h
  obtain ⟨a, ha⟩ := reqStrField_nil_some _ _ _ h1
  obtain ⟨b, hb⟩ := reqStrField_nil_some _ _ _ h2
  obtain ⟨c, hc⟩ := reqStrField_nil_some _ _ _ h3
  obtain ⟨d, hd⟩ := reqStrField_nil_some _ _ _ h4
  obtain ⟨e, he2⟩ := reqStrField_nil_some _ _ _ h5
  exact ⟨⟨a, b, c, d, e⟩, by simp [validateHeaderFields, ha, hb, hc, hd, he2]⟩

/-- An error-free expertise validation produced a model. -/
theorem validateExpertiseFields_nil_some (kvs : List (String × Raw))
    (h : (validateExpertiseFields kvs).1 = []) :
    ∃ m, (validateExpertiseFields kvs).2 = some m := by
  simp only [validateExpertiseFields] at h
  obtain ⟨a, ha⟩ := reqStrField_nil_some _ _ _ h
  exact ⟨⟨a⟩, by simp [validateExpertiseFields, ha]⟩

/-- An error-free skills validation produced a model. -/
theorem validateSkillsFields_nil_some (kvs : List (String × Raw))
    (h : (validateSkillsFields kvs).1 = []) :
    ∃ m, (validateSkillsFields kvs).2 = some m := by
  simp only [validateSkillsFields] at h
  obtain ⟨a, ha⟩ := reqStrField_nil_some _ _ _ h
  exact ⟨⟨a⟩, by simp [validateSkillsFields, ha]⟩

/-- An error-free experience validation produced a model. -/
theorem validateExperienceFields_nil_some (kvs : List (String × Raw))
    (h : (validateExperienceFields kvs).1 = []) :
    ∃ m, (validateExperienceFields kvs).2 = some m := by
  simp only [validateExperienceFields, List.append_eq_nil] at h
  obtain ⟨⟨⟨⟨h1, h2⟩, h3⟩, h4⟩, h5⟩ := h
  obtain ⟨a, ha⟩ := reqStrField_nil_some _ _ _ h1
  obtain ⟨b, hb⟩ := reqStrField_nil_some _ _ _ h2
  obtain ⟨c, hc⟩ := reqStrField_nil_some _ _ _ h3
  obtain ⟨d, hd⟩ := optStrField_nil_some _ _ _ h4
  obtain ⟨e, he2⟩ := respField_nil_some _ h5
  exact ⟨⟨a, b, c, d, e⟩, by simp [validateExperienceFields, ha, hb, hc, hd, he2]⟩

/-- An error-free project validation produced a model. -/
theorem validateProjectFields_nil_some (kvs : List (String × Raw))
    (h : (validateProjectFields kvs).1 = []) :
    ∃ m, (validateProjectFields kvs).2 = some m := by
  simp only [validateProjectFields, List.append_eq_nil] at h
  obtain ⟨⟨⟨⟨h1, h2⟩, h3⟩, h4⟩, h5⟩ := h
  obtain ⟨a, ha⟩ := reqStrField_nil_some _ _ _ h1
  obtain ⟨b, hb⟩ := reqStrField_nil_some _ _ _ h2
  obtain ⟨c, hc⟩ := reqStrField_nil_some _ _ _ h3
  obtain ⟨d, hd⟩ := reqStrField_nil_some _ _ _ h4
  obtain ⟨e, he2⟩ := optStrField_nil_some _ _ _ h5
  exact ⟨⟨a, b, c, d, e⟩, by simp [validateProjectFields, ha, hb, hc, hd, he2]⟩

/-- An error-free education validation produced a model. -/
theorem validateEducationFields_nil_some (kvs : List (String × Raw))
    (h : (validateEducationFields kvs).1 = []) :
    ∃ m, (validateEducationFields kvs).2 = some m := by
  simp only [validateEducationFields, List.append_eq_nil] at h
  obtain ⟨⟨⟨⟨h1, h2⟩, h3⟩, h4⟩, h5⟩ := h
  obtain ⟨a, ha⟩ := reqStrField_nil_some _ _ _ h1
  obtain ⟨b, hb⟩ := reqStrField_nil_some _ _ _ h2
  obtain ⟨c, hc⟩ := reqStrField_nil_some _ _ _ h3
  obtain ⟨d, hd⟩ := reqStrField_nil_some _ _ _ h4
  obtain ⟨e, he2⟩ := optStrField_nil_some _ _ _ h5
  exact ⟨⟨a, b, c, d, e⟩, by simp [validateEducationFields, ha, hb, hc, hd, he2]⟩

/-- An error-free award validation produced a model. -/
theorem validateAwardFields_nil_some (kvs : List (String × Raw))
    (h : (validateAwardFields kvs).1 = []) :
    ∃ m, (validateAwardFields kvs).2 = some m := by
  simp only [validateAwardFields, List.append_eq_nil] at h
  obtain ⟨⟨⟨h1, h2⟩, h3⟩, h4⟩ := h
  obtain ⟨a, ha⟩ := reqStrField_nil_some _ _ _ h1
  obtain ⟨b, hb⟩ := reqStrField_nil_some _ _ _ h2
  obtain ⟨c, hc⟩ := reqStrField_nil_some _ _ _ h3
  obtain ⟨d, hd⟩ := optStrField_nil_some _ _ _ h4
  exact ⟨⟨a, b, c, d⟩, by simp [validateAwardFields, ha, hb, hc, hd]⟩

/-- An error-free header raw value produced a model. -/
theorem validateHeader_nil_some (r : Raw) (h : (validateHeader r).1 = []) :
    ∃ m, (validateHeader r).2 = some m := by
  cases r with
  | obj kvs => exact validateHeaderFields_nil_some kvs h
  | str s => simp [validateHeader] at h
  | list xs => simp [validateHeader] at h
  | null => simp [validateHeader] at h

/-- An error-free expertise raw value produced a model. -/
theorem validateExpertise_nil_some (r : Raw) (h : (validateExpertise r).1 = []) :
    ∃ m, (validateExpertise r).2 = some m := by
  cases r with
  | obj kvs => exact validateExpertiseFields_nil_some kvs h
  | str s => simp [validateExpertise] at h
  | list xs => simp [validateExpertise] at h
  | null => simp [validateExpertise] at h

/-- An error-free skills raw value produced a model. -/
theorem validateSkills_nil_some (r : Raw) (h : (validateSkills r).1 = []) :
    ∃ m, (validateSkills r).2 = some m := by
  cases r with
  | obj kvs => exact validateSkillsFields_nil_some kvs h
  | str s => simp [validateSkills] at h
  | list xs => simp [validateSkills] at h
  | null => simp [validateSkills] at h

/-- An error-free experience raw value produced a model. -/
theorem validateExperience_nil_some (r : Raw) (h : (validateExperience r).1 = []) :
    ∃ m, (validateExperience r).2 = some m := by
  cases r with
  | obj kvs => exact validateExperienceFields_nil_some kvs h
  | str s => simp [validateExperience] at h
  | list xs => simp [validateExperience] at h
  | null => simp [validateExperience] at h

/-- An error-free project raw value produced a model. -/
theorem validateProject_nil_some (r : Raw) (h : (validateProject r).1 = []) :
    ∃ m, (validateProject r).2 = some m := by
  cases r with
  | obj kvs => exact validateProjectFields_nil_some kvs h
  | str s => simp [validateProject] at h
  | list xs => simp [validateProject] at h
  | null => simp [validateProject] at h

/-- An error-free education raw value produced a model. -/
theorem validateEducation_nil_some (r : Raw) (h : (validateEducation r).1 = []) :
    ∃ m, (validateEducation r).2 = some m := by
  cases r with
  | obj kvs => exact validateEducationFields_nil_some kvs h
  | str s => simp [validateEducation] at h
  | list xs => simp [validateEducation] at h
  | null => simp [validateEducation] at h

/-- An error-free award raw value produced a model. -/
theorem validateAward_nil_some (r : Raw) (h : (validateAward r).1 = []) :
    ∃ m, (validateAward r).2 = some m := by
  cases r with
  | obj kvs => exact validateAwardFields_nil_some kvs h
  | str s => simp [validateAward] at h
  | list xs => simp [validateAward] at h
  | null => simp [validateAward] at h

/-- An error-free element list produced element models. -/
theorem modelElems_nil_some {α : Type} (f : Raw → List VError × Option α)
    (hf : ∀ r, (f r).1 = [] → ∃ v, (f r).2 = some v) :
    ∀ (xs : List Raw) (i : Nat), (modelElems f xs i).1 = [] →
      ∃ vs, (modelElems f xs i).2 = some vs := by
  intro xs
  induction xs with
  | nil =>
    intro i h
    exact ⟨[], rfl⟩
  | cons x rest ih =>
    intro i h
    simp only [modelElems, List.append_eq_nil] at h
    obtain ⟨hx, htail⟩ := h
    have hx2 : (f x).1 = [] := by simpa [addPath] using hx
    obtain ⟨v, hv⟩ := hf x hx2
    obtain ⟨vs, hvs⟩ := ih (i + 1) htail
    exact ⟨v :: vs, by simp [modelElems, hv, hvs]⟩

/-- An error-free model-list field produced a value. -/
theorem listModelField_nil_some {α : Type} (kvs : List (String × Raw)) (n : String)
    (f : Raw → List VError × Option α) (checks : List (List α → Option String))
    (hf : ∀ r, (f r).1 = [] → ∃ v, (f r).2 = some v)
    (h : (listModelField kvs n f checks).1 = []) :
    ∃ vs, (listModelField kvs n f checks).2 = some vs := by
  rcases heq : getKey kvs n with _ | r
  · unfold listModelField at h
    rw [heq] at h
    simp at h
  · cases r with
    | list xs =>
      have hbody : listModelField kvs n f checks =
          (match (modelElems f xs 0).2 with
           | some vs =>
             match runChecks checks vs with
             | some m => ([⟨n, valueError m, "value_error"⟩], none)
             | none => ([], some vs)
           | none => (addPath n (modelElems f xs 0).1, none)) := by
        unfold listModelField
        rw [heq]
      rw [hbody] at h ⊢
      split at h
      · rename_i vs hvs
        rcases hrc : runChecks checks vs with _ | m
        · exact ⟨vs, by simp [hrc]⟩
        · simp [hrc] at h
      · rename_i hnone
        have hr1 : (modelElems f xs 0).1 = [] := by simpa [addPath] using h
        obtain ⟨vs, hvs⟩ := modelElems_nil_some f hf xs 0 hr1
        rw [hvs] at hnone
        exact absurd hnone (by simp)
    | str s =>
      unfold listModelField at h
      rw [heq] at h
      simp at h
    | obj o =>
      unfold listModelField at h
      rw [heq] at h
      simp at h
    | null =>
      unfold listModelField at h
      rw [heq] at h
      simp at h

/-- An error-free awards field produced a value. -/
theorem awardsField_nil_some (kvs : List (String × Raw))
    (h : (awardsField kvs).1 = []) : ∃ oaw, (awardsField kvs).2 = some oaw := by
  rcases heq : getKey kvs "awards" with _ | r
  · exact ⟨some [], by unfold awardsField; rw [heq]⟩
  · cases r with
    | list xs =>
      have hbody : awardsField kvs =
          (match (modelElems validateAward xs 0).2 with
           | some vs => ([], some (some vs))
           | none => (addPath "awards" (modelElems validateAward xs 0).1, none)) := by
        unfold awardsField
        rw [heq]
      rw [hbody] at h ⊢
      split at h
      · rename_i vs hvs
        exact ⟨some vs, rfl⟩
      · rename_i hnone
        have hr1 : (modelElems validateAward xs 0).1 = [] := by simpa [addPath] using h
        obtain ⟨vs, hvs⟩ := modelElems_nil_some validateAward validateAward_nil_some xs 0 hr1
        rw [hvs] at hnone
        exact absurd hnone (by simp)
    | str s =>
      unfold awardsField at h
      rw [heq] at h
      simp at h
    | obj o =>
      unfold awardsField at h
      rw [heq] at h
      simp at h
    | null =>
      exact ⟨none, by unfold awardsField; rw [heq]⟩

/-- An error-free resume validation produced a model. -/
theorem validateResumeObj_nil_some (kvs : List (String × Raw))
    (h : (validateResumeObj kvs).1 = []) :
    ∃ m, (validateResumeObj kvs).2 = some m := by
  rw [resume_errors_decomp] at h
  simp only [List.append_eq_nil] at h
  obtain ⟨⟨⟨⟨⟨⟨⟨h1, h2⟩, h3⟩, h4⟩, h5⟩, h6⟩, h7⟩, h8⟩ := h
  obtain ⟨a, ha⟩ := modelField_nil_some _ _ _ validateHeader_nil_some h1
  obtain ⟨b, hb⟩ := modelField_nil_some _ _ _ validateExpertise_nil_some h2
  obtain ⟨c, hc⟩ := modelField_nil_some _ _ _ validateSkills_nil_some h3
  obtain ⟨d, hd⟩ := listModelField_nil_some _ _ _ _ validateExperience_nil_some h4
  obtain ⟨e, he2⟩ := listModelField_nil_some _ _ _ _ validateProject_nil_some h5
  obtain ⟨f, hf⟩ := listModelField_nil_some _ _ _ _ validateEducation_nil_some h6
  obtain ⟨g, hg⟩ := awardsField_nil_some _ h7
  exact ⟨⟨a, b, c, d, e, f, g⟩,
    by simp [validateResumeObj, ha, hb, hc, hd, he2, hf, hg]⟩

/-- C9: on an input satisfying every invariant (no violations), validation
succeeds and the returned aggregate equals the pure echo read of the raw
document — every supplied field value is returned unchanged, nothing is
rewritten, trimmed or normalized. -/
theorem claim_C9_echo_unchanged (kvs : List (String × Raw))
    (h : (validateResumeObj kvs).1 = []) :
    ∃ m, (validateResumeObj kvs).2 = some m ∧ echoResumeObj kvs = some m ∧
      validate_resume kvs = ⟨true, [], some m⟩ := by
  obtain ⟨m, hm⟩ := validateResumeObj_nil_some kvs h
  refine ⟨m, hm, validateResumeObj_some_echo kvs m hm, ?_⟩
  rw [validate_resume_of_nil kvs h, hm]

set_option maxRecDepth 1000000 in
/-- Closed witness for the echo property: the concrete valid document
validates successfully and the endpoint returns exactly the supplied
values as the typed aggregate. -/
theorem claim_C9_witness :
    validate_resume goodResumeKvs = ⟨true, [], some goodResumeModel⟩ ∧
    echoResumeObj goodResumeKvs = some goodResumeModel := by
  obtain ⟨m, h1, h2, h3⟩ := claim_C9_echo_unchanged goodResumeKvs (by decide)
  have hm : (validateResumeObj goodResumeKvs).2 = some goodResumeModel := by decide
  rw [h1] at hm
  cases Option.some.inj hm
  exact ⟨h3, h2⟩
